import Mathlib

/-
  Verification development for the Recall card-game engine
  (Rust sources: models.rs, game_state_new.rs — the `game_state` module —,
  game_round.rs, game_round_actions.rs).

  The Rust data model and the action/turn handlers are shallowly embedded:
  structs become structures, `HashMap` becomes an insertion-ordered
  association list (Rust's iteration order over a HashMap is unspecified;
  the list order plays that role), `Vec` becomes `List` with push = append
  at the end and top = last element, machine integers become `Nat`,
  `SystemTime::now()` becomes an explicit `now : Nat` argument, and the
  JSON plumbing of action payloads becomes a structure of optional fields.
  Functions of the turn engine additionally return the list of assignments
  they make to `game_state.phase`, in execution order; the plain state
  transition is the first projection.
-/

namespace Recall

/-! ### Enumerations (models.rs) -/

inductive CardSuit where
  | Hearts
  | Diamonds
  | Clubs
  | Spades
deriving DecidableEq

def CardSuit.to_string : CardSuit → String
  | CardSuit.Hearts => "hearts"
  | CardSuit.Diamonds => "diamonds"
  | CardSuit.Clubs => "clubs"
  | CardSuit.Spades => "spades"

inductive CardRank where
  | Joker
  | Ace
  | Two
  | Three
  | Four
  | Five
  | Six
  | Seven
  | Eight
  | Nine
  | Ten
  | Jack
  | Queen
  | King
deriving DecidableEq

def CardRank.to_string : CardRank → String
  | CardRank.Joker => "joker"
  | CardRank.Ace => "ace"
  | CardRank.Two => "2"
  | CardRank.Three => "3"
  | CardRank.Four => "4"
  | CardRank.Five => "5"
  | CardRank.Six => "6"
  | CardRank.Seven => "7"
  | CardRank.Eight => "8"
  | CardRank.Nine => "9"
  | CardRank.Ten => "10"
  | CardRank.Jack => "jack"
  | CardRank.Queen => "queen"
  | CardRank.King => "king"

inductive PlayerType where
  | Human
  | Computer
deriving DecidableEq

inductive PlayerStatus where
  | Waiting
  | Ready
  | Playing
  | SameRankWindow
  | PlayingCard
  | DrawingCard
  | QueenPeek
  | JackSwap
  | Peeking
  | InitialPeek
  | Finished
  | Disconnected
  | Winner
deriving DecidableEq

inductive GamePhase where
  | WaitingForPlayers
  | DealingCards
  | PlayerTurn
  | SameRankWindow
  | SpecialPlayWindow
  | QueenPeekWindow
  | TurnPendingEvents
  | EndingRound
  | EndingTurn
  | RecallCalled
  | GameEnded
deriving DecidableEq

/-- `to_lowercase` on the canonical rank strings (models.rs strings are
already lower case; the Rust validation lowercases both sides anyway):
lowercase every character. -/
def strToLower (s : String) : String := ⟨s.data.map Char.toLower⟩

/-! ### Card and Player (models.rs) -/

structure Card where
  card_id : String
  rank : CardRank
  suit : CardSuit
  points : Nat
  special_power : Option String
  is_visible : Bool
  owner_id : Option String
deriving DecidableEq

def Card.get_point_value (c : Card) : Nat := c.points

structure Player where
  player_id : String
  name : String
  player_type : PlayerType
  hand : List (Option Card)
  visible_cards : List Card
  status : PlayerStatus
  has_called_recall : Bool
  drawn_card : Option Card
  cards_to_peek : List Card
  is_active : Bool
deriving DecidableEq

/-- `Player::is_active()`: the flag and the status both permit play. -/
def Player.isActive (p : Player) : Bool :=
  p.is_active && !(p.status == PlayerStatus.Finished || p.status == PlayerStatus.Disconnected)

/-- `Player::add_card_to_hand`: fill the first empty slot, else push. -/
def addCardSlots : List (Option Card) → Card → List (Option Card)
  | [], c => [some c]
  | none :: rest, c => some c :: rest
  | some x :: rest, c => some x :: addCardSlots rest c

def Player.add_card_to_hand (p : Player) (c : Card) : Player :=
  { p with hand := addCardSlots p.hand c }

/-- `Player::remove_card_from_hand`: `slot.take()` on the first slot holding
the card id — the slot stays, as `none` (positions preserved). Returns the
removed card (if any) and the updated hand. -/
def removeCardSlots : List (Option Card) → String → Option Card × List (Option Card)
  | [], _ => (none, [])
  | some c :: rest, cid =>
      if c.card_id = cid then (some c, none :: rest)
      else
        let r := removeCardSlots rest cid
        (r.1, some c :: r.2)
  | none :: rest, cid =>
      let r := removeCardSlots rest cid
      (r.1, none :: r.2)

def Player.remove_card_from_hand (p : Player) (cid : String) : Option Card × Player :=
  let r := removeCardSlots p.hand cid
  (r.1, { p with hand := r.2 })

/-- The find-card-and-index loop of `_handle_play_card` / `_handle_jack_swap`:
first occupied slot whose card has the given id, with its slot index. -/
def findCardIdx : List (Option Card) → String → Option (Card × Nat)
  | [], _ => none
  | some c :: rest, cid =>
      if c.card_id = cid then some (c, 0)
      else (findCardIdx rest cid).map (fun x => (x.1, x.2 + 1))
  | none :: rest, cid => (findCardIdx rest cid).map (fun x => (x.1, x.2 + 1))

/-- `.iter().position(pred)` over hand slots. -/
def positionSlot : List (Option Card) → (Option Card → Bool) → Option Nat
  | [], _ => none
  | s :: rest, pred =>
      if pred s then some 0 else (positionSlot rest pred).map (fun i => i + 1)

/-- The `find_map` lookup of `_handle_same_rank_play` / `_handle_queen_peek`. -/
def findCardInHand (hand : List (Option Card)) (cid : String) : Option Card :=
  (findCardIdx hand cid).map (fun x => x.1)

/-- `Player::calculate_points`: sum of point values over occupied slots. -/
def Player.calculate_points (p : Player) : Nat :=
  ((p.hand.filterMap id).map Card.get_point_value).sum

/-! ### Association-list model of `HashMap` -/

def lookupA {β : Type} : List (String × β) → String → Option β
  | [], _ => none
  | (k, v) :: rest, key => if k = key then some v else lookupA rest key

/-- `get_mut` + in-place mutation: update the (unique) entry with this key. -/
def updateA {β : Type} : List (String × β) → String → (β → β) → List (String × β)
  | [], _, _ => []
  | (k, v) :: rest, key, f =>
      if k = key then (k, f v) :: rest else (k, v) :: updateA rest key f

/-- `HashMap::insert`: replace the value at an existing key, else append. -/
def insertA {β : Type} : List (String × β) → String → β → List (String × β)
  | [], key, v => [(key, v)]
  | (k, w) :: rest, key, v =>
      if k = key then (k, v) :: rest else (k, w) :: insertA rest key v

/-- `HashMap::remove`: drop the entry, returning the removed value. -/
def removeA {β : Type} : List (String × β) → String → Option β × List (String × β)
  | [], _ => (none, [])
  | (k, v) :: rest, key =>
      if k = key then (some v, rest)
      else
        let r := removeA rest key
        (r.1, (k, v) :: r.2)

def containsA {β : Type} (l : List (String × β)) (key : String) : Bool :=
  (lookupA l key).isSome

/-! ### GameState (game_state_new.rs) -/

structure GameState where
  game_id : String
  max_players : Nat
  min_players : Nat
  permission : String
  players : List (String × Player)
  current_player_id : Option String
  phase : GamePhase
  discard_pile : List Card
  draw_pile : List Card
  pending_draws : List (String × Card)
  out_of_turn_deadline : Option Nat
  out_of_turn_timeout_seconds : Nat
  last_played_card : Option Card
  recall_called_by : Option String
  game_start_time : Option Nat
  last_action_time : Option Nat
  game_ended : Bool
  winner : Option String
  game_history : List String
  player_sessions : List (String × String)
  session_players : List (String × String)
  change_tracking_enabled : Bool
  pending_changes : List String
  initialized : Bool
  previous_phase : Option GamePhase
deriving DecidableEq

def GameState.new (game_id : String) (max_players min_players : Nat)
    (permission : String) : GameState :=
  { game_id := game_id
    max_players := max_players
    min_players := min_players
    permission := permission
    players := []
    current_player_id := none
    phase := GamePhase.WaitingForPlayers
    discard_pile := []
    draw_pile := []
    pending_draws := []
    out_of_turn_deadline := none
    out_of_turn_timeout_seconds := 5
    last_played_card := none
    recall_called_by := none
    game_start_time := none
    last_action_time := none
    game_ended := false
    winner := none
    game_history := []
    player_sessions := []
    session_players := []
    change_tracking_enabled := true
    pending_changes := []
    initialized := true
    previous_phase := none }

/-- `_track_change` (the phase-transition detection has no state effect). -/
def GameState.track_change (s : GameState) (property_name : String) : GameState :=
  if s.change_tracking_enabled then
    { s with pending_changes := property_name :: s.pending_changes }
  else s

/-- `_send_changes_if_needed`: the send is external; the set is cleared. -/
def GameState.send_changes_if_needed (s : GameState) : GameState :=
  if !s.change_tracking_enabled || s.pending_changes.isEmpty then s
  else { s with pending_changes := [] }

def GameState.add_to_discard_pile (s : GameState) (c : Card) : Bool × GameState :=
  (true, (({ s with discard_pile := s.discard_pile ++ [c] }).track_change
      "discard_pile").send_changes_if_needed)

/-- `draw_from_draw_pile`: pop the top (= last) of the draw pile. -/
def GameState.draw_from_draw_pile (s : GameState) : Option Card × GameState :=
  if s.draw_pile.isEmpty then (none, s)
  else
    (s.draw_pile.getLast?,
      (({ s with draw_pile := s.draw_pile.dropLast }).track_change
        "draw_pile").send_changes_if_needed)

def GameState.draw_from_discard_pile (s : GameState) : Option Card × GameState :=
  if s.discard_pile.isEmpty then (none, s)
  else
    (s.discard_pile.getLast?,
      (({ s with discard_pile := s.discard_pile.dropLast }).track_change
        "discard_pile").send_changes_if_needed)

/-- `GameState::add_player` (capacity check, insert, session bi-map).
The Rust code keys the session maps by `players.keys().last().unwrap()` —
an arbitrary key of the HashMap; modelled as the last key in list order. -/
def GameState.add_player (s : GameState) (p : Player) (session_id : Option String) :
    Bool × GameState :=
  if s.max_players ≤ s.players.length then (false, s)
  else
    let s1 := { s with players := insertA s.players p.player_id p }
    match session_id with
    | none => (true, s1)
    | some sid =>
      let lastKey := ((s1.players.map (fun kv => kv.1)).getLast?).getD ""
      (true,
        { s1 with
          player_sessions := insertA s1.player_sessions lastKey sid
          session_players := insertA s1.session_players sid lastKey })

def GameState.remove_player (s : GameState) (pid : String) : Bool × GameState :=
  let r := removeA s.players pid
  match r.1 with
  | some _ =>
    let s1 := { s with players := r.2 }
    let rs := removeA s1.player_sessions pid
    match rs.1 with
    | some sid =>
      (true, { s1 with player_sessions := rs.2, session_players := (removeA s1.session_players sid).2 })
    | none => (true, { s1 with player_sessions := rs.2 })
  | none => (false, s)

def GameState.update_player_session (s : GameState) (pid sid : String) : Bool × GameState :=
  if !(containsA s.players pid) then (false, s)
  else
    let rs := removeA s.player_sessions pid
    let s1 :=
      match rs.1 with
      | some old_sid => { s with player_sessions := rs.2, session_players := (removeA s.session_players old_sid).2 }
      | none => { s with player_sessions := rs.2 }
    (true,
      { s1 with
        player_sessions := insertA s1.player_sessions pid sid
        session_players := insertA s1.session_players sid pid })

def GameState.remove_session (s : GameState) (sid : String) : Option String × GameState :=
  let r := removeA s.session_players sid
  match r.1 with
  | some pid =>
    (some pid, { s with session_players := r.2, player_sessions := (removeA s.player_sessions pid).2 })
  | none => (none, s)

/-! ### GameRound data (game_round.rs) -/

/-- An entry of `same_rank_data` (the JSON play record). -/
structure SameRankEntry where
  player_id : String
  card_id : String
  rank : String
  suit : String
  timestamp : Nat
  play_order : Nat
deriving DecidableEq

/-- An entry of `special_card_data` / `special_card_players`. -/
structure SpecialEntry where
  player_id : String
  card_id : String
  rank : String
  suit : String
  special_power : String
  timestamp : Nat
  description : String
deriving DecidableEq

/-- An entry of `pending_events` (its `data` payload is never read). -/
structure PendingEvent where
  etype : String
  player_id : String
deriving DecidableEq

/-- An `actions_performed` entry (the chrono timestamp string becomes `Nat`,
the free-form `data` payload is never read back). -/
structure LogEntry where
  timestamp : Nat
  action_type : String
  round_number : Nat
deriving DecidableEq

structure GameRound where
  game_state : GameState
  round_number : Nat
  round_start_time : Option Nat
  round_end_time : Option Nat
  current_turn_start_time : Option Nat
  turn_timeout_seconds : Nat
  actions_performed : List LogEntry
  same_rank_data : List (String × SameRankEntry)
  special_card_data : List SpecialEntry
  same_rank_timer : Option Nat
  special_card_timer : Option Nat
  special_card_players : List SpecialEntry
  pending_events : List PendingEvent
  round_status : String
  timed_rounds_enabled : Bool
  round_time_limit_seconds : Nat
  round_time_remaining : Option Nat
  websocket_manager : Option String
deriving DecidableEq

def GameRound.new (gs : GameState) : GameRound :=
  { game_state := gs
    round_number := 1
    round_start_time := none
    round_end_time := none
    current_turn_start_time := none
    turn_timeout_seconds := 30
    actions_performed := []
    same_rank_data := []
    special_card_data := []
    same_rank_timer := none
    special_card_timer := none
    special_card_players := []
    pending_events := []
    round_status := "waiting"
    timed_rounds_enabled := false
    round_time_limit_seconds := 300
    round_time_remaining := none
    websocket_manager := none }

/-! ### Winner resolver (`_determine_winner`, game_round.rs) -/

/-- A `player_results` entry built by `_handle_end_of_match`. -/
structure PlayerResult where
  player_id : String
  player_name : String
  hand_cards : List Card
  card_count : Nat
  total_points : Nat
deriving DecidableEq

structure WinnerData where
  is_tie : Bool
  winner_id : Option String
  winner_name : Option String
  win_reason : String
  winners : List String
deriving DecidableEq

/-- `.map(total_points).min().unwrap_or(0)`. -/
def listMinD : List Nat → Nat → Nat
  | [], d => d
  | x :: xs, _ => xs.foldl Nat.min x

/-- `_determine_winner`: the four-rule cascade. The `results` list carries
the entries of the `player_results` HashMap in iteration order. -/
def determine_winner (recall_called_by : Option String)
    (results : List PlayerResult) : WinnerData :=
  match results.find? (fun e => e.card_count == 0) with
  | some e =>
    { is_tie := false, winner_id := some e.player_id,
      winner_name := some e.player_name, win_reason := "no_cards", winners := [] }
  | none =>
    let min_points := listMinD (results.map (fun e => e.total_points)) 0
    let lowest := results.filter (fun e => e.total_points == min_points)
    match lowest with
    | [e] =>
      -- `lowest_point_players.len() == 1`
      { is_tie := false, winner_id := some e.player_id,
        winner_name := some e.player_name, win_reason := "lowest_points", winners := [] }
    | _ =>
      let rcWinner : Option PlayerResult :=
        match recall_called_by with
        | some rc => lowest.find? (fun e => e.player_id == rc)
        | none => none
      match rcWinner with
      | some e =>
        { is_tie := false, winner_id := some e.player_id,
          winner_name := some e.player_name,
          win_reason := "recall_caller_lowest_points", winners := [] }
      | none =>
        { is_tie := true, winner_id := none, winner_name := none,
          win_reason := "tie_lowest_points",
          winners := lowest.map (fun e => e.player_name) }

/-- The `player_results` map built by `_handle_end_of_match` from the active
players (in iteration order). -/
def playerResultsOf (ps : List (String × Player)) : List PlayerResult :=
  (ps.filter (fun kv => kv.2.isActive)).map (fun kv =>
    let hand_cards := kv.2.hand.filterMap id
    { player_id := kv.1
      player_name := kv.2.name
      hand_cards := hand_cards
      card_count := hand_cards.length
      total_points := (hand_cards.map Card.get_point_value).sum })

/-- `_handle_end_of_match` (game_round.rs): score, resolve, set phase
GAME_ENDED, set statuses.  Second component: the phase assignments made. -/
def handle_end_of_match (r : GameRound) : GameRound × List GamePhase :=
  let results := playerResultsOf r.game_state.players
  let winner_data := determine_winner r.game_state.recall_called_by results
  let gs1 := { r.game_state with phase := GamePhase.GameEnded }
  let gs2 :=
    if winner_data.is_tie then
      { gs1 with
        players := winner_data.winners.foldl (fun ps nm =>
          ps.map (fun kv =>
            if kv.2.name = nm then (kv.1, { kv.2 with status := PlayerStatus.Finished })
            else kv)) gs1.players }
    else
      match winner_data.winner_id with
      | some wid =>
        let ps1 := updateA gs1.players wid (fun p => { p with status := PlayerStatus.Winner })
        { gs1 with
          players := ps1.map (fun kv =>
            if kv.1 ≠ wid then (kv.1, { kv.2 with status := PlayerStatus.Finished })
            else kv) }
      | none => gs1
  ({ r with game_state := gs2 }, [GamePhase.GameEnded])

/-! ### Turn engine (game_round.rs) -/

/-- `_log_action`: push an entry, keep only the last 100. -/
def log_action (now : Nat) (action_type : String) (r : GameRound) : GameRound :=
  let l := r.actions_performed ++ [⟨now, action_type, r.round_number⟩]
  { r with actions_performed := if 100 < l.length then l.drop (l.length - 100) else l }

/-- `_start_turn_internal` / `start_turn` (the `Ok` ack payload is not
modelled; websocket sends are no-ops). -/
def start_turn (now : Nat) (r : GameRound) : GameRound × List GamePhase :=
  let r1 := { r with same_rank_data := [] }
  let r2 :=
    if !r1.special_card_data.isEmpty &&
        !(r1.game_state.phase == GamePhase.SpecialPlayWindow) then
      { r1 with special_card_data := [] }
    else r1
  let r3 := { r2 with
    round_start_time := some now
    current_turn_start_time := some now
    round_status := "active"
    actions_performed := [] }
  let gs1 := { r3.game_state with phase := GamePhase.PlayerTurn }
  let gs2 :=
    match gs1.current_player_id with
    | some cpid =>
      let ps := updateA gs1.players cpid (fun p => { p with status := PlayerStatus.DrawingCard })
      { gs1 with players := ps }
    | none => gs1
  let r4 := { r3 with game_state := gs2 }
  let r5 :=
    if r4.timed_rounds_enabled then
      { r4 with round_time_remaining := some r4.round_time_limit_seconds }
    else r4
  let r6 := log_action now "round_started" r5
  let r7 := { r6 with current_turn_start_time := some now }
  (r7, [GamePhase.PlayerTurn])

/-- The active-player id list of `_move_to_next_player` (insertion order). -/
def active_player_ids (gs : GameState) : List String :=
  (gs.players.filter (fun kv => kv.2.isActive)).map (fun kv => kv.1)

/-- The cyclic successor computed by `_move_to_next_player`:
`position(current).unwrap_or(0)`, then `(i + 1) % len`. -/
def next_active_player_id (gs : GameState) : Option String :=
  let ids := active_player_ids gs
  if ids.isEmpty then none
  else
    let current_index :=
      match gs.current_player_id with
      | some c => (ids.findIdx? (fun i => i == c)).getD 0
      | none => 0
    some (ids.getD ((current_index + 1) % ids.length) "")

/-- `_move_to_next_player`. -/
def move_to_next_player (now : Nat) (r : GameRound) : GameRound × List GamePhase :=
  if r.game_state.players.isEmpty then (r, [])
  else if (active_player_ids r.game_state).isEmpty then (r, [])
  else
    let gs1 :=
      match r.game_state.current_player_id with
      | some c =>
        let ps := updateA r.game_state.players c (fun p => { p with status := PlayerStatus.Ready })
        { r.game_state with players := ps }
      | none => r.game_state
    let next := (next_active_player_id r.game_state).getD ""
    let gs2 := { gs1 with current_player_id := some next }
    let r2 := { r with game_state := gs2 }
    match gs2.recall_called_by with
    | some rc => if next = rc then handle_end_of_match r2 else start_turn now r2
    | none => start_turn now r2

/-- `_check_pending_events_before_ending_round`.  In the source the
non-empty branch drains the queue (`mem::take`; the only known event,
`queen_peek_pause`, is a no-op) and re-enters `continue_turn`; since the
queue is then empty, that re-entry reduces to the one-level unrolling
written here. -/
def check_pending_events_before_ending_round (now : Nat) (r : GameRound) :
    GameRound × List GamePhase :=
  if r.pending_events.isEmpty then
    ({ r with game_state := { r.game_state with phase := GamePhase.EndingRound } },
      [GamePhase.EndingRound])
  else
    let r1 := { r with pending_events := [] }
    let step1 :=
      if r1.game_state.phase = GamePhase.TurnPendingEvents then
        ({ r1 with game_state := { r1.game_state with phase := GamePhase.EndingRound } },
          [GamePhase.EndingRound])
      else (r1, ([] : List GamePhase))
    let step2 :=
      if step1.1.game_state.phase = GamePhase.EndingRound then
        move_to_next_player now step1.1
      else (step1.1, [])
    (step2.1, step1.2 ++ step2.2)

/-- `continue_turn` / `_continue_turn_internal` (always returns `Ok(true)`;
the boolean is dropped). -/
def continue_turn (now : Nat) (r : GameRound) : GameRound × List GamePhase :=
  let step1 :=
    if r.game_state.phase = GamePhase.TurnPendingEvents then
      check_pending_events_before_ending_round now r
    else (r, ([] : List GamePhase))
  let step2 :=
    if step1.1.game_state.phase = GamePhase.EndingRound then
      move_to_next_player now step1.1
    else (step1.1, [])
  (step2.1, step1.2 ++ step2.2)

/-! ### Action handlers (game_round_actions.rs) -/

/-- The normalized fields of `_build_action_data` that the handlers read.
JSON field extraction (including the nested `card.card_id` fallbacks) is
modelled by pre-extracted optional string fields. -/
structure ActionData where
  card_id : Option String
  replace_card_id : Option String
  replace_index : Option Nat
  source : Option String
  first_card_id : Option String
  first_player_id : Option String
  second_card_id : Option String
  second_player_id : Option String
  owner_id : Option String
deriving DecidableEq

def ActionData.empty : ActionData :=
  { card_id := none, replace_card_id := none, replace_index := none, source := none,
    first_card_id := none, first_player_id := none, second_card_id := none,
    second_player_id := none, owner_id := none }

/-- An incoming request: the action tag under `action` or `action_type`,
plus the payload fields. -/
structure ActionRequest where
  action : Option String
  action_type : Option String
  data : ActionData
deriving DecidableEq

def build_action_data (req : ActionRequest) : ActionData := req.data

/-- `_extract_user_id`: the session id stands in for the player id. -/
def extract_user_id (session_id : String) (_req : ActionRequest) : String := session_id

/-- `_check_special_card`: queue a special-card entry for jack / queen. -/
def check_special_card (now : Nat) (pid cid rank suit : String) (r : GameRound) : GameRound :=
  if rank = "jack" then
    { r with special_card_data := r.special_card_data ++
        [⟨pid, cid, rank, suit, "jack_swap", now, "Can switch any two cards between players"⟩] }
  else if rank = "queen" then
    { r with special_card_data := r.special_card_data ++
        [⟨pid, cid, rank, suit, "queen_peek", now, "Can look at one card from any player's hand"⟩] }
  else r

/-- `_start_same_rank_timer`: arm the 5-second window deadline. -/
def start_same_rank_timer (now : Nat) (r : GameRound) : GameRound :=
  { r with same_rank_timer := some (now + 5) }

/-- `_handle_same_rank_window`: phase ← SAME_RANK_WINDOW, every active
player's status ← SAME_RANK_WINDOW, arm the timer. -/
def handle_same_rank_window (now : Nat) (r : GameRound) : GameRound × List GamePhase :=
  let ps := r.game_state.players.map (fun kv =>
    if kv.2.isActive then (kv.1, { kv.2 with status := PlayerStatus.SameRankWindow }) else kv)
  let gs := { r.game_state with phase := GamePhase.SameRankWindow, players := ps }
  (start_same_rank_timer now { r with game_state := gs }, [GamePhase.SameRankWindow])

/-- `_handle_draw_from_pile`. -/
def handle_draw_from_pile (pid : String) (ad : ActionData) (r : GameRound) :
    Bool × GameRound :=
  let source := ad.source.getD ""
  if source ≠ "deck" && source ≠ "discard" then (false, r)
  else
    let drawn :=
      if source = "deck" then r.game_state.draw_from_draw_pile
      else r.game_state.draw_from_discard_pile
    match drawn.1 with
    | none => (false, r)
    | some card =>
      let ps := updateA drawn.2.players pid (fun p =>
        { p.add_card_to_hand card with drawn_card := some card, status := PlayerStatus.PlayingCard })
      (true, { r with game_state := { drawn.2 with players := ps } })

/-- `_handle_play_card`. -/
def handle_play_card (now : Nat) (pid : String) (ad : ActionData) (r : GameRound) :
    Bool × GameRound :=
  let cid := ad.card_id.getD ""
  match lookupA r.game_state.players pid with
  | none => (false, r)
  | some player =>
    match findCardIdx player.hand cid with
    | none => (false, r)
    | some (card_to_play, card_index) =>
      let drawn := player.drawn_card
      let drawn_card_original_index : Option Nat :=
        match drawn with
        | some dc =>
          if dc.card_id ≠ cid then
            positionSlot player.hand (fun s => (s.map (fun c => c.card_id == dc.card_id)).getD false)
          else none
        | none => none
      let rem := removeCardSlots player.hand cid
      match rem.1 with
      | none => (false, r)
      | some removed =>
        let ps1 := updateA r.game_state.players pid (fun p => { p with hand := rem.2 })
        let r1 := { r with game_state := { r.game_state with players := ps1 } }
        let disc := r1.game_state.add_to_discard_pile removed
        if !disc.1 then
          -- unreachable: add_to_discard_pile always succeeds; the source
          -- would put the card back and return false
          let ps2 := updateA disc.2.players pid (fun p => p.add_card_to_hand removed)
          (false, { r1 with game_state := { disc.2 with players := ps2 } })
        else
          let r2 := { r1 with game_state := disc.2 }
          let r3 :=
            match drawn, drawn_card_original_index with
            | some dc, some original_index =>
              let ps3 := updateA r2.game_state.players pid (fun p =>
                if dc.card_id ≠ cid then
                  let h1 := p.hand.eraseIdx original_index
                  let h2 :=
                    if card_index < h1.length then h1.insertIdx card_index (some dc)
                    else h1 ++ [some dc]
                  { p with hand := h2, drawn_card := none }
                else { p with drawn_card := none })
              { r2 with game_state := { r2.game_state with players := ps3 } }
            | _, _ => r2
          let r4 := check_special_card now pid cid card_to_play.rank.to_string
            card_to_play.suit.to_string r3
          (true, r4)

/-- `_validate_same_rank_play`. -/
def validate_same_rank_play (gs : GameState) (card_rank : String) : Bool :=
  if gs.discard_pile.isEmpty then false
  else
    match gs.discard_pile.getLast? with
    | none => false
    | some last_card =>
      if gs.discard_pile.length = 1 then true
      else strToLower card_rank == strToLower last_card.rank.to_string

/-- `_apply_same_rank_penalty`: a single draw into the offender's hand. -/
def apply_same_rank_penalty (pid : String) (r : GameRound) : Option Card × GameRound :=
  if r.game_state.draw_pile.isEmpty then (none, r)
  else
    let d := r.game_state.draw_from_draw_pile
    match d.1 with
    | none => (none, r)
    | some penalty_card =>
      let ps := updateA d.2.players pid (fun p =>
        { p.add_card_to_hand penalty_card with status := PlayerStatus.Waiting })
      (some penalty_card, { r with game_state := { d.2 with players := ps } })

/-- `_handle_same_rank_play`. -/
def handle_same_rank_play (now : Nat) (uid : String) (ad : ActionData) (r : GameRound) :
    Bool × GameRound :=
  let cid := ad.card_id.getD ""
  match lookupA r.game_state.players uid with
  | none => (false, r)
  | some player =>
    match findCardInHand player.hand cid with
    | none => (false, r)
    | some played_card =>
      let card_rank := played_card.rank.to_string
      let card_suit := played_card.suit.to_string
      if !(validate_same_rank_play r.game_state card_rank) then
        (false, (apply_same_rank_penalty uid r).2)
      else
        let rem := removeCardSlots player.hand cid
        match rem.1 with
        | none => (false, r)
        | some removed =>
          let ps1 := updateA r.game_state.players uid (fun p => { p with hand := rem.2 })
          let r1 := { r with game_state := { r.game_state with players := ps1 } }
          let disc := r1.game_state.add_to_discard_pile removed
          if !disc.1 then (false, { r1 with game_state := disc.2 })
          else
            let r2 := { r1 with game_state := disc.2 }
            let r3 := check_special_card now uid cid card_rank card_suit r2
            let entry : SameRankEntry :=
              { player_id := uid, card_id := cid, rank := card_rank, suit := card_suit,
                timestamp := now, play_order := r3.same_rank_data.length + 1 }
            (true, { r3 with same_rank_data := insertA r3.same_rank_data uid entry })

/-- `_handle_jack_swap`.  The source finds both cards in cloned hands, then
writes the two slots by direct indexing; the owner_id update is left as a
placeholder comment in the source and is not performed. -/
def handle_jack_swap (_uid : String) (ad : ActionData) (r : GameRound) :
    Bool × GameRound :=
  let first_card_id := ad.first_card_id.getD ""
  let first_player_id := ad.first_player_id.getD ""
  let second_card_id := ad.second_card_id.getD ""
  let second_player_id := ad.second_player_id.getD ""
  if first_card_id = "" || first_player_id = "" || second_card_id = "" ||
      second_player_id = "" then (false, r)
  else if !(containsA r.game_state.players first_player_id) ||
      !(containsA r.game_state.players second_player_id) then (false, r)
  else
    match lookupA r.game_state.players first_player_id,
        lookupA r.game_state.players second_player_id with
    | some fp, some sp =>
      match findCardIdx fp.hand first_card_id, findCardIdx sp.hand second_card_id with
      | some (first_card, first_card_index), some (second_card, second_card_index) =>
        let ps1 := updateA r.game_state.players first_player_id (fun p =>
          { p with hand := p.hand.set first_card_index (some second_card) })
        let ps2 := updateA ps1 second_player_id (fun p =>
          { p with hand := p.hand.set second_card_index (some first_card) })
        (true, { r with game_state := { r.game_state with players := ps2 } })
      | _, _ => (false, r)
    | _, _ => (false, r)

/-- `_handle_queen_peek`: copy the target card into the actor's peek buffer. -/
def handle_queen_peek (uid : String) (ad : ActionData) (r : GameRound) :
    Bool × GameRound :=
  let cid := ad.card_id.getD ""
  let owner_id := ad.owner_id.getD ""
  if cid = "" || owner_id = "" then (false, r)
  else
    match lookupA r.game_state.players owner_id with
    | none => (false, r)
    | some target_player =>
      match findCardInHand target_player.hand cid with
      | none => (false, r)
      | some target_card =>
        match lookupA r.game_state.players uid with
        | none => (false, r)
        | some _ =>
          let ps := updateA r.game_state.players uid (fun p =>
            { p with cards_to_peek := [target_card], status := PlayerStatus.Peeking })
          (true, { r with game_state := { r.game_state with players := ps } })

/-- `_route_action`.  Third component: the `phase` assignments made
(only the `play_card` branch writes the phase, by opening the window). -/
def route_action (now : Nat) (action uid : String) (ad : ActionData) (r : GameRound) :
    Bool × GameRound × List GamePhase :=
  if action = "draw_from_deck" then
    let x := handle_draw_from_pile uid ad r
    (x.1, x.2, [])
  else if action = "play_card" then
    let x := handle_play_card now uid ad r
    let y := handle_same_rank_window now x.2
    (x.1, y.1, y.2)
  else if action = "same_rank_play" then
    let x := handle_same_rank_play now uid ad r
    (x.1, x.2, [])
  else if action = "discard_card" then (true, r, [])
  else if action = "take_from_discard" then (true, r, [])
  else if action = "call_recall" then (true, r, [])
  else if action = "jack_swap" then
    let x := handle_jack_swap uid ad r
    (x.1, x.2, [])
  else if action = "queen_peek" then
    let x := handle_queen_peek uid ad r
    (x.1, x.2, [])
  else (false, r, [])

/-- `on_player_action`: resolve the tag, validate the player, route, and
stamp `last_action_time` on success. -/
def on_player_action (now : Nat) (session_id : String) (req : ActionRequest)
    (r : GameRound) : Bool × GameRound × List GamePhase :=
  let action := (req.action.orElse (fun _ => req.action_type)).getD ""
  if action = "" then (false, r, [])
  else
    let user_id := extract_user_id session_id req
    if !(containsA r.game_state.players user_id) then (false, r, [])
    else
      let action_data := build_action_data req
      let x := route_action now action user_id action_data r
      if x.1 then
        (x.1, { x.2.1 with game_state := { x.2.1.game_state with last_action_time := some now } },
          x.2.2)
      else x

/-! ### Special-card window (game_round_actions.rs) -/

/-- `_end_special_cards_window`. -/
def end_special_cards_window (now : Nat) (r : GameRound) : GameRound × List GamePhase :=
  let r1 := { r with
    special_card_timer := none
    special_card_data := []
    special_card_players := []
    game_state := { r.game_state with phase := GamePhase.TurnPendingEvents } }
  let c := continue_turn now r1
  (c.1, GamePhase.TurnPendingEvents :: c.2)

/-- `_process_next_special_card`.  On an unknown power the entry is removed
(inside the player lookup) and the timer is still armed; no recursion. -/
def process_next_special_card (now : Nat) (r : GameRound) : GameRound × List GamePhase :=
  match r.special_card_players with
  | [] => end_special_cards_window now r
  | special_data :: rest =>
    let pid := special_data.player_id
    let power := special_data.special_power
    let r1 :=
      match lookupA r.game_state.players pid with
      | some _ =>
        if power = "jack_swap" then
          let ps := updateA r.game_state.players pid (fun p =>
            { p with status := PlayerStatus.JackSwap })
          { r with game_state := { r.game_state with players := ps } }
        else if power = "queen_peek" then
          let ps := updateA r.game_state.players pid (fun p =>
            { p with status := PlayerStatus.QueenPeek })
          { r with game_state := { r.game_state with players := ps } }
        else { r with special_card_players := rest }
      | none => r
    ({ r1 with special_card_timer := some (now + 10) }, [])

/-- `_on_special_card_timer_expired`. -/
def on_special_card_timer_expired (now : Nat) (r : GameRound) : GameRound × List GamePhase :=
  let r1 :=
    match r.special_card_players with
    | [] => r
    | special_data :: rest =>
      let ps := updateA r.game_state.players special_data.player_id (fun p =>
        { p with status := PlayerStatus.Waiting })
      { r with game_state := { r.game_state with players := ps }, special_card_players := rest }
  process_next_special_card now r1

/-- `_handle_special_cards_window`. -/
def handle_special_cards_window (now : Nat) (r : GameRound) : GameRound × List GamePhase :=
  if r.special_card_data.isEmpty then
    let r1 := { r with game_state := { r.game_state with phase := GamePhase.EndingRound } }
    let c := continue_turn now r1
    (c.1, GamePhase.EndingRound :: c.2)
  else
    let r1 := { r with
      game_state := { r.game_state with phase := GamePhase.SpecialPlayWindow }
      special_card_players := r.special_card_data }
    let p := process_next_special_card now r1
    (p.1, GamePhase.SpecialPlayWindow :: p.2)

/-- `_end_same_rank_window` (the same-rank timer callback). -/
def end_same_rank_window (now : Nat) (r : GameRound) : GameRound × List GamePhase :=
  let ps := r.game_state.players.map (fun kv =>
    if kv.2.isActive then (kv.1, { kv.2 with status := PlayerStatus.Waiting }) else kv)
  let r1 := { r with game_state := { r.game_state with players := ps } }
  if r1.game_state.players.any (fun kv =>
      kv.2.isActive && (kv.2.hand.filterMap id).length == 0) then
    handle_end_of_match r1
  else
    let r2 := { r1 with same_rank_data := [] }
    handle_special_cards_window now r2

/-! ### The engine's event alphabet

Entry points into a `GameRound`: a dispatched player action, the two timer
callbacks (externally scheduled; they re-enter the engine), and the public
`start_turn` / `continue_turn` methods. -/

inductive GEvent where
  | act (now : Nat) (session_id : String) (req : ActionRequest)
  | sameRankTimeout (now : Nat)
  | specialTimeout (now : Nat)
  | turnStart (now : Nat)
  | turnContinue (now : Nat)

def step_event : GEvent → GameRound → GameRound
  | GEvent.act now sid req, r => (on_player_action now sid req r).2.1
  | GEvent.sameRankTimeout now, r => (end_same_rank_window now r).1
  | GEvent.specialTimeout now, r => (on_special_card_timer_expired now r).1
  | GEvent.turnStart now, r => (start_turn now r).1
  | GEvent.turnContinue now, r => (continue_turn now r).1

def run_events (evs : List GEvent) (r : GameRound) : GameRound :=
  evs.foldl (fun s e => step_event e s) r

/-- The phase-write log of an event (execution order). -/
def step_event_log : GEvent → GameRound → List GamePhase
  | GEvent.act now sid req, r => (on_player_action now sid req r).2.2
  | GEvent.sameRankTimeout now, r => (end_same_rank_window now r).2
  | GEvent.specialTimeout now, r => (on_special_card_timer_expired now r).2
  | GEvent.turnStart now, r => (start_turn now r).2
  | GEvent.turnContinue now, r => (continue_turn now r).2

/-- The concatenated phase-write log of a run. -/
def run_events_log : List GEvent → GameRound → List GamePhase
  | [], _ => []
  | e :: evs, r => step_event_log e r ++ run_events_log evs (step_event e r)

/-! ### Card-id observers -/

/-- Card ids in the occupied slots of one hand. -/
def handIds (hand : List (Option Card)) : Multiset String :=
  ((hand.filterMap id).map (fun c => c.card_id) : List String)

def playersHandIds (ps : List (String × Player)) : Multiset String :=
  (ps.map (fun kv => handIds kv.2.hand)).sum

def pileIds (l : List Card) : Multiset String :=
  (l.map (fun c => c.card_id) : List String)

/-- The canonically-held card ids of a table: every hand slot, the draw
pile, the discard pile, and the pending-draws map. -/
def gsCardIds (gs : GameState) : Multiset String :=
  playersHandIds gs.players + pileIds gs.draw_pile + pileIds gs.discard_pile +
    pileIds (gs.pending_draws.map (fun kv => kv.2))

/-- The canonically-held card ids of a round. -/
def cardIds (r : GameRound) : Multiset String :=
  gsCardIds r.game_state

/-- Ids sitting in drawn-card registers. -/
def registerIds (ps : List (String × Player)) : Multiset String :=
  ((ps.filterMap (fun kv => kv.2.drawn_card.map (fun c => c.card_id))) : List String)

/-- Ids sitting in peek buffers. -/
def peekIds (ps : List (String × Player)) : Multiset String :=
  (ps.map (fun kv => pileIds kv.2.cards_to_peek)).sum

/-- The multiset of §8's card-conservation claim: hands, piles, pending
draws, peek buffers and drawn-card registers together. -/
def cardIdsFull (r : GameRound) : Multiset String :=
  cardIds r + registerIds r.game_state.players + peekIds r.game_state.players

/-! ### The within-turn phase chain -/

/-- Position of a phase in the claimed per-turn chain
player_turn → same_rank_window → special_play_window → turn_pending_events
→ ending_round. -/
def chainIdx : GamePhase → Option Nat
  | GamePhase.PlayerTurn => some 0
  | GamePhase.SameRankWindow => some 1
  | GamePhase.SpecialPlayWindow => some 2
  | GamePhase.TurnPendingEvents => some 3
  | GamePhase.EndingRound => some 4
  | _ => none

/-- Truncate a phase-write log at the first write that leaves the turn
(the next turn's `player_turn`, or `game_ended`). -/
def turnSeg (l : List GamePhase) : List GamePhase :=
  l.takeWhile (fun p => !(p == GamePhase.PlayerTurn || p == GamePhase.GameEnded))

/-- All phases in the list are chain phases with strictly increasing chain
positions, starting strictly above `i`. -/
def ascendingFrom : Nat → List GamePhase → Bool
  | _, [] => true
  | i, p :: rest =>
    match chainIdx p with
    | some j => decide (i < j) && ascendingFrom j rest
    | none => false

/-! ### Table-level events (for the capacity invariant) -/

inductive GSEvent where
  | addP (p : Player) (session_id : Option String)
  | removeP (pid : String)
  | updSession (pid sid : String)
  | rmSession (sid : String)

def gs_step : GSEvent → GameState → GameState
  | GSEvent.addP p sid, s => (s.add_player p sid).2
  | GSEvent.removeP pid, s => (s.remove_player pid).2
  | GSEvent.updSession pid sid, s => (s.update_player_session pid sid).2
  | GSEvent.rmSession sid, s => (s.remove_session sid).2

def run_gs (evs : List GSEvent) (s : GameState) : GameState :=
  evs.foldl (fun s e => gs_step e s) s

/-! ### Concrete sample data for witnesses and counterexamples -/

def mkCard (i : String) (rk : CardRank) (st : CardSuit) (pts : Nat) : Card :=
  { card_id := i, rank := rk, suit := st, points := pts, special_power := none,
    is_visible := false, owner_id := none }

def mkPlayer (pid nm : String) (hand : List (Option Card)) : Player :=
  { player_id := pid, name := nm, player_type := PlayerType.Human, hand := hand,
    visible_cards := [], status := PlayerStatus.Waiting, has_called_recall := false,
    drawn_card := none, cards_to_peek := [], is_active := true }

def cFive : Card := mkCard "c5" CardRank.Five CardSuit.Hearts 5
def cSix : Card := mkCard "c6" CardRank.Six CardSuit.Clubs 6
def cNine : Card := mkCard "c9" CardRank.Nine CardSuit.Spades 9
def cTwo : Card := mkCard "c2" CardRank.Two CardSuit.Diamonds 2
def cKing : Card := mkCard "cK" CardRank.King CardSuit.Hearts 10

def baseState : GameState := GameState.new "g1" 4 2 "public"

/-- A table mid-turn: P1 holds `c5` and `c6` and has just drawn `c9`
(the register holds it, and it sits in slot 2 of the hand). -/
def bugRound : GameRound :=
  GameRound.new { baseState with
    players := [("P1", { mkPlayer "P1" "Alice" [some cFive, some cSix, some cNine] with
      drawn_card := some cNine })]
    current_player_id := some "P1"
    phase := GamePhase.PlayerTurn }

def playReq (cid : String) : ActionRequest :=
  { action := some "play_card", action_type := none,
    data := { ActionData.empty with card_id := some cid } }

/-- A table about to draw: P1 has an empty hand, the draw pile holds `c2`. -/
def dupRound : GameRound :=
  GameRound.new { baseState with
    players := [("P1", mkPlayer "P1" "Alice" [])]
    draw_pile := [cTwo]
    current_player_id := some "P1"
    phase := GamePhase.PlayerTurn }

def c5Req : ActionRequest :=
  { action := some "play_card", action_type := none,
    data := { ActionData.empty with card_id := some "zz" } }

def drawDeckReq : ActionRequest :=
  { action := some "draw_from_deck", action_type := none,
    data := { ActionData.empty with source := some "deck" } }

/-- Two resolver entries with empty hands (rule 1 applies to both). -/
def zA : PlayerResult :=
  { player_id := "A", player_name := "Ann", hand_cards := [], card_count := 0, total_points := 0 }

def zB : PlayerResult :=
  { player_id := "B", player_name := "Bob", hand_cards := [], card_count := 0, total_points := 0 }

/-- Jack-swap scenario: `x1` (owned by P1) in P1's hand, `y2` (owned by P2)
in P2's hand. -/
def jc1 : Card := { mkCard "x1" CardRank.Ace CardSuit.Hearts 1 with owner_id := some "P1" }

def jc2 : Card := { mkCard "y2" CardRank.Two CardSuit.Clubs 2 with owner_id := some "P2" }

def swapRound : GameRound :=
  GameRound.new { baseState with
    players := [("P1", mkPlayer "P1" "Alice" [some jc1, some cFive]),
                ("P2", mkPlayer "P2" "Bob" [some cSix, some jc2])] }

def swapData : ActionData :=
  { ActionData.empty with
    first_card_id := some "x1", first_player_id := some "P1",
    second_card_id := some "y2", second_player_id := some "P2" }

/-- Recall-termination scenario: B called recall, A is current, the round is
ending.  A holds 7 points, B holds 9, so A (not the caller) wins. -/
def recallRound : GameRound :=
  GameRound.new { baseState with
    players := [("A", mkPlayer "A" "Ann" [some cTwo, some cFive]),
                ("B", mkPlayer "B" "Bob" [some cNine])]
    current_player_id := some "A"
    recall_called_by := some "B"
    phase := GamePhase.EndingRound }

def recallE1 : GEvent := GEvent.turnContinue 1

def recallE2 : GEvent := GEvent.act 2 "A" (playReq "c2")

def recallE3 : GEvent := GEvent.sameRankTimeout 3

/-- One-turn trace scenario: a single active player, no special cards. -/
def oneTurnRound : GameRound :=
  GameRound.new { baseState with
    players := [("A", mkPlayer "A" "Ann" [some cTwo, some cFive])]
    current_player_id := some "A"
    phase := GamePhase.EndingRound }

def turnE1 : GEvent := GEvent.turnStart 1

def turnE2 : GEvent := GEvent.act 2 "A" (playReq "c2")

def turnE3 : GEvent := GEvent.sameRankTimeout 3

/-- A round sitting in `turn_pending_events`, for the pending-events step. -/
def tpeRound : GameRound :=
  { oneTurnRound with game_state := { oneTurnRound.game_state with
      phase := GamePhase.TurnPendingEvents } }

/-- The two admissible full chains of the phase-monotonicity claim
(special_play_window optional, the rest mandatory). -/
def chainWithSpecial : List GamePhase :=
  [GamePhase.PlayerTurn, GamePhase.SameRankWindow, GamePhase.SpecialPlayWindow,
    GamePhase.TurnPendingEvents, GamePhase.EndingRound]

def chainWithoutSpecial : List GamePhase :=
  [GamePhase.PlayerTurn, GamePhase.SameRankWindow,
    GamePhase.TurnPendingEvents, GamePhase.EndingRound]

/-- The phases the engine traverses in the first turn of a run: the
`player_turn` opening the turn followed by the later writes, cut at the
write that begins the next turn or ends the game. -/
def firstTurnPhases (evs : List GEvent) (r : GameRound) : List GamePhase :=
  match run_events_log evs r with
  | [] => []
  | p :: rest => p :: turnSeg rest

/-- Witness scenario for recall termination: the recall caller is the sole
active player, so the cyclic advance lands back on them. -/
def wRecallRound : GameRound :=
  GameRound.new { baseState with
    players := [("A", mkPlayer "A" "Ann" [some cTwo, some cFive])]
    current_player_id := some "A"
    recall_called_by := some "A"
    phase := GamePhase.EndingRound }

/-- Witness scenario for the same-rank round-trip: P1 holds `c5`; the
discard pile is `[c9, c6]` (top `c6`), so rank 5 differs; the draw pile
holds `cK`. -/
def wSrRound : GameRound :=
  GameRound.new { baseState with
    players := [("P1", mkPlayer "P1" "Alice" [some cFive, none])]
    discard_pile := [cNine, cSix]
    draw_pile := [cKing]
    phase := GamePhase.SameRankWindow }

/-- Witness entries for the winner cascade (scenario S6): Ann and Bob tie at
6 points, Cid holds 10, Ann called recall. -/
def wEntryA : PlayerResult :=
  { player_id := "A", player_name := "Ann", hand_cards := [cSix], card_count := 1,
    total_points := 6 }

def wEntryB : PlayerResult :=
  { player_id := "B", player_name := "Bob", hand_cards := [cSix], card_count := 1,
    total_points := 6 }

def wEntryC : PlayerResult :=
  { player_id := "C", player_name := "Cid", hand_cards := [cKing], card_count := 1,
    total_points := 10 }

/-- Witness entries for resolver order-invariance: distinct points, no empty
hand, a unique minimum. -/
def wMinA : PlayerResult :=
  { player_id := "A", player_name := "Ann", hand_cards := [cTwo], card_count := 1,
    total_points := 3 }

def wMinB : PlayerResult :=
  { player_id := "B", player_name := "Bob", hand_cards := [cNine], card_count := 1,
    total_points := 7 }

/-- A full table for the capacity witness. -/
def fullState : GameState :=
  { GameState.new "g2" 2 2 "public" with
    players := [("P1", mkPlayer "P1" "Alice" []), ("P2", mkPlayer "P2" "Bob" [])] }

def wNewPlayer : Player := mkPlayer "P3" "Cid" []

/-- The `min_points` value computed inside `_determine_winner`. -/
def minPointsOf (entries : List PlayerResult) : Nat :=
  listMinD (entries.map (fun e => e.total_points)) 0

/-- The `lowest_point_players` list computed inside `_determine_winner`. -/
def tiedAtMin (entries : List PlayerResult) : List PlayerResult :=
  entries.filter (fun e => e.total_points == minPointsOf entries)

/-! ## Lemma toolkit -/

theorem handIds_nil : handIds [] = 0 := rfl

theorem handIds_cons_none (h : List (Option Card)) :
    handIds (none :: h) = handIds h := by
  simp [handIds]

theorem handIds_cons_some (c : Card) (h : List (Option Card)) :
    handIds (some c :: h) = c.card_id ::ₘ handIds h := by
  simp [handIds, Multiset.cons_coe]

theorem handIds_addCardSlots (h : List (Option Card)) (c : Card) :
    handIds (addCardSlots h c) = c.card_id ::ₘ handIds h := by
  induction h with
  | nil => simp [addCardSlots, handIds, Multiset.cons_coe]
  | cons s rest ih =>
    cases s with
    | none => simp [addCardSlots, handIds_cons_none, handIds_cons_some]
    | some x =>
      simp [addCardSlots, handIds_cons_some, ih]
      exact Multiset.cons_swap _ _ _

theorem removeCardSlots_none (h : List (Option Card)) (cid : String)
    (hn : (removeCardSlots h cid).1 = none) : (removeCardSlots h cid).2 = h := by
  induction h with
  | nil => rfl
  | cons s rest ih =>
    cases s with
    | none =>
      simp only [removeCardSlots] at hn ⊢
      rw [ih hn]
    | some c =>
      by_cases hc : c.card_id = cid
      · simp [removeCardSlots, hc] at hn
      · simp only [removeCardSlots, if_neg hc] at hn ⊢
        rw [ih hn]

theorem removeCardSlots_ids (h : List (Option Card)) (cid : String) (c : Card)
    (hs : (removeCardSlots h cid).1 = some c) :
    handIds h = c.card_id ::ₘ handIds (removeCardSlots h cid).2 := by
  induction h with
  | nil => simp [removeCardSlots] at hs
  | cons s rest ih =>
    cases s with
    | none =>
      simp only [removeCardSlots] at hs ⊢
      rw [handIds_cons_none, handIds_cons_none, ih hs]
    | some x =>
      by_cases hc : x.card_id = cid
      · simp only [removeCardSlots, if_pos hc] at hs ⊢
        cases hs
        rw [handIds_cons_some, handIds_cons_none]
      · simp only [removeCardSlots, if_neg hc] at hs ⊢
        rw [handIds_cons_some, handIds_cons_some, ih hs]
        exact (Multiset.cons_swap _ _ _).symm

theorem removeCardSlots_id_eq (h : List (Option Card)) (cid : String) (c : Card)
    (hs : (removeCardSlots h cid).1 = some c) : c.card_id = cid := by
  induction h with
  | nil => simp [removeCardSlots] at hs
  | cons s rest ih =>
    cases s with
    | none =>
      simp only [removeCardSlots] at hs
      exact ih hs
    | some x =>
      by_cases hc : x.card_id = cid
      · simp only [removeCardSlots, if_pos hc] at hs
        cases hs; exact hc
      · simp only [removeCardSlots, if_neg hc] at hs
        exact ih hs

/-- The removal returns exactly the card the `find_map` lookup returns. -/
theorem removeCardSlots_fst_eq_find (h : List (Option Card)) (cid : String) :
    (removeCardSlots h cid).1 = findCardInHand h cid := by
  induction h with
  | nil => rfl
  | cons s rest ih =>
    cases s with
    | none =>
      simp only [removeCardSlots, findCardInHand, findCardIdx] at ih ⊢
      rw [ih, Option.map_map]
      cases findCardIdx rest cid <;> rfl
    | some x =>
      by_cases hc : x.card_id = cid
      · simp [removeCardSlots, findCardInHand, findCardIdx, hc]
      · simp only [removeCardSlots, findCardInHand, findCardIdx, if_neg hc] at ih ⊢
        rw [ih, Option.map_map]
        cases findCardIdx rest cid <;> rfl

/-- Slots holding a card of a different id survive the removal untouched. -/
theorem removeCardSlots_get_ne (h : List (Option Card)) (cid : String) (i : Nat)
    (c : Card) (hg : h.get? i = some (some c)) (hne : c.card_id ≠ cid) :
    (removeCardSlots h cid).2.get? i = some (some c) := by
  induction h generalizing i with
  | nil => simp at hg
  | cons s rest ih =>
    cases s with
    | none =>
      cases i with
      | zero => simp at hg
      | succ j =>
        simp only [List.get?] at hg
        simp only [removeCardSlots, List.get?]
        exact ih j hg
    | some x =>
      by_cases hc : x.card_id = cid
      · cases i with
        | zero =>
          simp only [List.get?] at hg
          cases hg
          exact absurd hc hne
        | succ j =>
          simp only [List.get?] at hg
          simp only [removeCardSlots, if_pos hc, List.get?]
          exact hg
      · cases i with
        | zero => simpa [removeCardSlots, if_neg hc] using hg
        | succ j =>
          simp only [List.get?] at hg
          simp only [removeCardSlots, if_neg hc, List.get?]
          exact ih j hg

theorem findCardIdx_spec (h : List (Option Card)) (cid : String) (c : Card) (i : Nat)
    (hf : findCardIdx h cid = some (c, i)) :
    h.get? i = some (some c) ∧ c.card_id = cid := by
  induction h generalizing i with
  | nil => simp [findCardIdx] at hf
  | cons s rest ih =>
    cases s with
    | none =>
      simp only [findCardIdx, Option.map_eq_some'] at hf
      obtain ⟨⟨c', j⟩, hfj, heq⟩ := hf
      cases heq
      exact ih j hfj
    | some x =>
      by_cases hc : x.card_id = cid
      · simp only [findCardIdx, if_pos hc] at hf
        cases hf
        exact ⟨rfl, hc⟩
      · simp only [findCardIdx, if_neg hc, Option.map_eq_some'] at hf
        obtain ⟨⟨c', j⟩, hfj, heq⟩ := hf
        cases heq
        exact ih j hfj

theorem positionSlot_spec (l : List (Option Card)) (pred : Option Card → Bool) (i : Nat)
    (hp : positionSlot l pred = some i) :
    ∃ s, l.get? i = some s ∧ pred s = true := by
  induction l generalizing i with
  | nil => simp [positionSlot] at hp
  | cons s rest ih =>
    by_cases hs : pred s
    · simp only [positionSlot, if_pos hs] at hp
      cases hp
      exact ⟨s, rfl, hs⟩
    · simp only [positionSlot, if_neg hs, Option.map_eq_some'] at hp
      obtain ⟨j, hj, heq⟩ := hp
      cases heq
      obtain ⟨t, ht, hpt⟩ := ih j hj
      exact ⟨t, ht, hpt⟩

theorem handIds_append_some (h : List (Option Card)) (c : Card) :
    handIds (h ++ [some c]) = c.card_id ::ₘ handIds h := by
  induction h with
  | nil => simp [handIds, Multiset.cons_coe]
  | cons s rest ih =>
    cases s with
    | none => simpa [handIds_cons_none] using ih
    | some x =>
      rw [List.cons_append, handIds_cons_some, handIds_cons_some, ih]
      exact Multiset.cons_swap _ _ _

theorem handIds_insertIdx (h : List (Option Card)) (c : Card) (i : Nat)
    (hle : i ≤ h.length) :
    handIds (h.insertIdx i (some c)) = c.card_id ::ₘ handIds h := by
  induction h generalizing i with
  | nil =>
    have hi : i = 0 := Nat.le_zero.mp hle
    subst hi
    simp [List.insertIdx_zero, handIds, Multiset.cons_coe]
  | cons s rest ih =>
    cases i with
    | zero =>
      cases s with
      | none => simp [List.insertIdx_zero, handIds_cons_some, handIds_cons_none]
      | some x => simp [List.insertIdx_zero, handIds_cons_some]
    | succ j =>
      have hj : j ≤ rest.length := Nat.le_of_succ_le_succ hle
      cases s with
      | none =>
        rw [List.insertIdx_succ_cons, handIds_cons_none, handIds_cons_none, ih j hj]
      | some x =>
        rw [List.insertIdx_succ_cons, handIds_cons_some, handIds_cons_some, ih j hj]
        exact Multiset.cons_swap _ _ _

theorem handIds_eraseIdx (h : List (Option Card)) (i : Nat) (c : Card)
    (hg : h.get? i = some (some c)) :
    handIds h = c.card_id ::ₘ handIds (h.eraseIdx i) := by
  induction h generalizing i with
  | nil => simp at hg
  | cons s rest ih =>
    cases i with
    | zero =>
      simp only [List.get?] at hg
      cases hg
      simp [List.eraseIdx_cons_zero, handIds_cons_some]
    | succ j =>
      simp only [List.get?] at hg
      cases s with
      | none =>
        rw [List.eraseIdx_cons_succ, handIds_cons_none, handIds_cons_none, ih j hg]
      | some x =>
        rw [List.eraseIdx_cons_succ, handIds_cons_some, handIds_cons_some, ih j hg]
        exact Multiset.cons_swap _ _ _

theorem handIds_set_some (h : List (Option Card)) (i : Nat) (a b : Card)
    (hg : h.get? i = some (some b)) :
    b.card_id ::ₘ handIds (h.set i (some a)) = a.card_id ::ₘ handIds h := by
  induction h generalizing i with
  | nil => simp at hg
  | cons s rest ih =>
    cases i with
    | zero =>
      simp only [List.get?] at hg
      cases hg
      rw [List.set_cons_zero, handIds_cons_some, handIds_cons_some]
      exact Multiset.cons_swap _ _ _
    | succ j =>
      simp only [List.get?] at hg
      cases s with
      | none =>
        rw [List.set_cons_succ, handIds_cons_none, handIds_cons_none]
        exact ih j hg
      | some x =>
        rw [List.set_cons_succ, handIds_cons_some, handIds_cons_some]
        rw [Multiset.cons_swap b.card_id, ih j hg]
        exact Multiset.cons_swap _ _ _

theorem playersHandIds_nil : playersHandIds [] = 0 := rfl

theorem playersHandIds_cons (kv : String × Player) (ps : List (String × Player)) :
    playersHandIds (kv :: ps) = handIds kv.2.hand + playersHandIds ps := by
  simp [playersHandIds]

theorem lookupA_updateA_self {β : Type} (ps : List (String × β)) (k : String)
    (f : β → β) : lookupA (updateA ps k f) k = (lookupA ps k).map f := by
  induction ps with
  | nil => rfl
  | cons kv rest ih =>
    by_cases hk : kv.1 = k
    · simp [updateA, lookupA, hk]
    · simp [updateA, lookupA, hk, ih]

theorem lookupA_updateA_ne {β : Type} (ps : List (String × β)) (k k' : String)
    (f : β → β) (h : k ≠ k') : lookupA (updateA ps k f) k' = lookupA ps k' := by
  induction ps with
  | nil => rfl
  | cons kv rest ih =>
    by_cases hk : kv.1 = k
    · subst hk
      simp [updateA, lookupA, h, ih]
    · by_cases hk' : kv.1 = k'
      · simp [updateA, lookupA, hk, hk', Ne.symm h]
      · simp [updateA, lookupA, hk, hk', ih]

theorem updateA_of_lookup_none {β : Type} (ps : List (String × β)) (k : String)
    (f : β → β) (h : lookupA ps k = none) : updateA ps k f = ps := by
  induction ps with
  | nil => rfl
  | cons kv rest ih =>
    by_cases hk : kv.1 = k
    · simp [lookupA, hk] at h
    · simp only [lookupA, if_neg hk] at h
      simp [updateA, hk, ih h]

theorem playersHandIds_updateA (ps : List (String × Player)) (pid : String)
    (f : Player → Player) (q : Player) (h : lookupA ps pid = some q) :
    playersHandIds (updateA ps pid f) + handIds q.hand =
      playersHandIds ps + handIds (f q).hand := by
  induction ps with
  | nil => simp [lookupA] at h
  | cons kv rest ih =>
    by_cases hk : kv.1 = pid
    · simp only [lookupA, if_pos hk] at h
      cases h
      simp only [updateA, if_pos hk]
      rw [playersHandIds_cons, playersHandIds_cons]
      abel
    · simp only [lookupA, if_neg hk] at h
      simp only [updateA, if_neg hk]
      rw [playersHandIds_cons, playersHandIds_cons, add_assoc, add_assoc, ih h]

theorem playersHandIds_updateA_handEq (ps : List (String × Player)) (pid : String)
    (f : Player → Player) (h : ∀ p, (f p).hand = p.hand) :
    playersHandIds (updateA ps pid f) = playersHandIds ps := by
  induction ps with
  | nil => rfl
  | cons kv rest ih =>
    by_cases hk : kv.1 = pid
    · simp only [updateA, if_pos hk]
      rw [playersHandIds_cons, playersHandIds_cons, h]
    · simp only [updateA, if_neg hk]
      rw [playersHandIds_cons, playersHandIds_cons, ih]

theorem playersHandIds_map_handEq (ps : List (String × Player))
    (g : String × Player → String × Player) (h : ∀ kv, ((g kv).2).hand = kv.2.hand) :
    playersHandIds (ps.map g) = playersHandIds ps := by
  induction ps with
  | nil => rfl
  | cons kv rest ih =>
    rw [List.map_cons, playersHandIds_cons, playersHandIds_cons, h, ih]

theorem pileIds_append_single (l : List Card) (c : Card) :
    pileIds (l ++ [c]) = c.card_id ::ₘ pileIds l := by
  induction l with
  | nil => simp [pileIds, Multiset.cons_coe]
  | cons x rest ih =>
    rw [List.cons_append]
    show (x.card_id ::ₘ pileIds (rest ++ [c])) = c.card_id ::ₘ x.card_id ::ₘ pileIds rest
    rw [ih]
    exact Multiset.cons_swap _ _ _

theorem pileIds_getLast (l : List Card) (c : Card) (h : l.getLast? = some c) :
    pileIds l = c.card_id ::ₘ pileIds l.dropLast := by
  have hne : l ≠ [] := by
    intro he
    subst he
    simp at h
  have hlast : l.getLast hne = c := by
    have := List.getLast?_eq_getLast l hne
    rw [this] at h
    exact (Option.some_inj.mp h)
  conv_lhs => rw [(List.dropLast_append_getLast hne).symm]
  rw [hlast, pileIds_append_single]

/-! ### Card conservation of the engine functions -/

theorem playersHandIds_statusFold (ws : List String) (ps : List (String × Player)) :
    playersHandIds (ws.foldl (fun ps nm =>
      ps.map (fun kv =>
        if kv.2.name = nm then (kv.1, { kv.2 with status := PlayerStatus.Finished })
        else kv)) ps) = playersHandIds ps := by
  induction ws generalizing ps with
  | nil => rfl
  | cons w rest ih =>
    rw [List.foldl_cons, ih]
    apply playersHandIds_map_handEq
    intro kv
    by_cases h : kv.2.name = w <;> simp [h]

theorem playersHandIds_updateA_setStatus (ps : List (String × Player)) (pid : String)
    (st : PlayerStatus) :
    playersHandIds (updateA ps pid (fun p => { p with status := st })) =
      playersHandIds ps :=
  playersHandIds_updateA_handEq _ _ _ (fun _ => rfl)

theorem cardIds_handle_end_of_match (r : GameRound) :
    cardIds (handle_end_of_match r).1 = cardIds r := by
  unfold handle_end_of_match
  simp only [cardIds, gsCardIds]
  split
  · rw [playersHandIds_statusFold]
  · split
    · next wid heq =>
      have h1 : ∀ kv : String × Player,
          (((fun kv : String × Player =>
            if kv.1 ≠ wid then (kv.1, { kv.2 with status := PlayerStatus.Finished })
            else kv) kv).2).hand = kv.2.hand := by
        intro kv
        by_cases h : kv.1 ≠ wid <;> simp [h]
      rw [playersHandIds_map_handEq _ _ h1, playersHandIds_updateA_setStatus]
    · rfl

theorem cardIds_log_action (now : Nat) (ty : String) (r : GameRound) :
    cardIds (log_action now ty r) = cardIds r := rfl

theorem cardIds_start_turn (now : Nat) (r : GameRound) :
    cardIds (start_turn now r).1 = cardIds r := by
  unfold start_turn log_action
  simp only [cardIds, gsCardIds, apply_ite GameRound.game_state, ite_self]
  split
  · rw [playersHandIds_updateA_setStatus]
  · rfl

theorem cardIds_move_to_next_player (now : Nat) (r : GameRound) :
    cardIds (move_to_next_player now r).1 = cardIds r := by
  unfold move_to_next_player
  split
  · rfl
  · split
    · rfl
    · split
      · -- current player present: their status is set to Ready first
        dsimp only
        split
        · split
          · rw [cardIds_handle_end_of_match]
            simp only [cardIds, gsCardIds]
            rw [playersHandIds_updateA_setStatus]
          · rw [cardIds_start_turn]
            simp only [cardIds, gsCardIds]
            rw [playersHandIds_updateA_setStatus]
        · rw [cardIds_start_turn]
          simp only [cardIds, gsCardIds]
          rw [playersHandIds_updateA_setStatus]
      · dsimp only
        split
        · split
          · rw [cardIds_handle_end_of_match]
            rfl
          · rw [cardIds_start_turn]
            rfl
        · rw [cardIds_start_turn]
          rfl

theorem cardIds_check_pending (now : Nat) (r : GameRound) :
    cardIds (check_pending_events_before_ending_round now r).1 = cardIds r := by
  unfold check_pending_events_before_ending_round
  split
  · rfl
  · dsimp only
    split
    · split
      · rw [cardIds_move_to_next_player]
        rfl
      · rfl
    · split
      · rw [cardIds_move_to_next_player]
        rfl
      · rfl

theorem cardIds_continue_turn (now : Nat) (r : GameRound) :
    cardIds (continue_turn now r).1 = cardIds r := by
  unfold continue_turn
  dsimp only
  split
  · split
    · rw [cardIds_move_to_next_player, cardIds_check_pending]
    · rw [cardIds_check_pending]
  · split
    · rw [cardIds_move_to_next_player]
    · rfl

theorem cardIds_end_special_cards_window (now : Nat) (r : GameRound) :
    cardIds (end_special_cards_window now r).1 = cardIds r := by
  unfold end_special_cards_window
  dsimp only
  rw [cardIds_continue_turn]
  rfl

theorem cardIds_process_next_special_card (now : Nat) (r : GameRound) :
    cardIds (process_next_special_card now r).1 = cardIds r := by
  unfold process_next_special_card
  split
  · rw [cardIds_end_special_cards_window]
  · dsimp only
    split
    · split
      · simp only [cardIds, gsCardIds]
        rw [playersHandIds_updateA_setStatus]
      · split
        · simp only [cardIds, gsCardIds]
          rw [playersHandIds_updateA_setStatus]
        · rfl
    · rfl

theorem cardIds_on_special_card_timer_expired (now : Nat) (r : GameRound) :
    cardIds (on_special_card_timer_expired now r).1 = cardIds r := by
  unfold on_special_card_timer_expired
  split
  · rw [cardIds_process_next_special_card]
  · dsimp only
    rw [cardIds_process_next_special_card]
    simp only [cardIds, gsCardIds]
    rw [playersHandIds_updateA_setStatus]

theorem cardIds_handle_special_cards_window (now : Nat) (r : GameRound) :
    cardIds (handle_special_cards_window now r).1 = cardIds r := by
  unfold handle_special_cards_window
  split
  · dsimp only
    rw [cardIds_continue_turn]
    rfl
  · dsimp only
    rw [cardIds_process_next_special_card]
    rfl

theorem playersHandIds_statusMapActive (ps : List (String × Player)) (st : PlayerStatus) :
    playersHandIds (ps.map (fun kv =>
      if kv.2.isActive then (kv.1, { kv.2 with status := st }) else kv)) =
      playersHandIds ps := by
  apply playersHandIds_map_handEq
  intro kv
  by_cases h : kv.2.isActive <;> simp [h]

theorem cardIds_handle_same_rank_window (now : Nat) (r : GameRound) :
    cardIds (handle_same_rank_window now r).1 = cardIds r := by
  unfold handle_same_rank_window start_same_rank_timer
  dsimp only
  simp only [cardIds, gsCardIds]
  rw [playersHandIds_statusMapActive]

theorem cardIds_end_same_rank_window (now : Nat) (r : GameRound) :
    cardIds (end_same_rank_window now r).1 = cardIds r := by
  unfold end_same_rank_window
  dsimp only
  split
  · rw [cardIds_handle_end_of_match]
    simp only [cardIds, gsCardIds]
    rw [playersHandIds_statusMapActive]
  · rw [cardIds_handle_special_cards_window]
    simp only [cardIds, gsCardIds]
    rw [playersHandIds_statusMapActive]

theorem playersHandIds_updateA_addCard (ps : List (String × Player)) (pid : String)
    (c : Card) (f : Player → Player) (q : Player) (hq : lookupA ps pid = some q)
    (hf : handIds ((f q).hand) = c.card_id ::ₘ handIds q.hand) :
    playersHandIds (updateA ps pid f) = c.card_id ::ₘ playersHandIds ps := by
  have h := playersHandIds_updateA ps pid f q hq
  rw [hf, ← Multiset.singleton_add, ← add_assoc] at h
  have h2 := add_right_cancel h
  rw [h2, ← Multiset.singleton_add, add_comm]

theorem playersHandIds_updateA_removeCard (ps : List (String × Player)) (pid : String)
    (c : Card) (f : Player → Player) (q : Player) (hq : lookupA ps pid = some q)
    (hf : handIds q.hand = c.card_id ::ₘ handIds ((f q).hand)) :
    c.card_id ::ₘ playersHandIds (updateA ps pid f) = playersHandIds ps := by
  have h := playersHandIds_updateA ps pid f q hq
  rw [hf, ← Multiset.singleton_add, ← add_assoc] at h
  have h2 := add_right_cancel h
  rw [← Multiset.singleton_add, add_comm]
  exact h2

theorem playersHandIds_updateA_preserve (ps : List (String × Player)) (pid : String)
    (f : Player → Player) (q : Player) (hq : lookupA ps pid = some q)
    (hf : handIds ((f q).hand) = handIds q.hand) :
    playersHandIds (updateA ps pid f) = playersHandIds ps := by
  have h := playersHandIds_updateA ps pid f q hq
  rw [hf] at h
  exact add_right_cancel h

theorem containsA_lookup {β : Type} (l : List (String × β)) (k : String)
    (h : containsA l k = true) : ∃ v, lookupA l k = some v := by
  unfold containsA at h
  cases hl : lookupA l k with
  | none => rw [hl] at h; simp at h
  | some v => exact ⟨v, rfl⟩

theorem track_players (s : GameState) (nm : String) :
    (s.track_change nm).players = s.players := by
  unfold GameState.track_change
  split <;> rfl

theorem track_draw_pile (s : GameState) (nm : String) :
    (s.track_change nm).draw_pile = s.draw_pile := by
  unfold GameState.track_change
  split <;> rfl

theorem track_discard_pile (s : GameState) (nm : String) :
    (s.track_change nm).discard_pile = s.discard_pile := by
  unfold GameState.track_change
  split <;> rfl

theorem track_pending_draws (s : GameState) (nm : String) :
    (s.track_change nm).pending_draws = s.pending_draws := by
  unfold GameState.track_change
  split <;> rfl

theorem send_players (s : GameState) :
    s.send_changes_if_needed.players = s.players := by
  unfold GameState.send_changes_if_needed
  split <;> rfl

theorem send_draw_pile (s : GameState) :
    s.send_changes_if_needed.draw_pile = s.draw_pile := by
  unfold GameState.send_changes_if_needed
  split <;> rfl

theorem send_discard_pile (s : GameState) :
    s.send_changes_if_needed.discard_pile = s.discard_pile := by
  unfold GameState.send_changes_if_needed
  split <;> rfl

theorem send_pending_draws (s : GameState) :
    s.send_changes_if_needed.pending_draws = s.pending_draws := by
  unfold GameState.send_changes_if_needed
  split <;> rfl

theorem cardIds_handle_draw_from_pile (pid : String) (ad : ActionData) (r : GameRound)
    (hc : containsA r.game_state.players pid = true) :
    cardIds (handle_draw_from_pile pid ad r).2 = cardIds r := by
  obtain ⟨q, hq⟩ := containsA_lookup _ _ hc
  by_cases hd : (decide (ad.source.getD "" ≠ "deck") &&
      decide (ad.source.getD "" ≠ "discard")) = true
  · unfold handle_draw_from_pile
    dsimp only
    rw [if_pos hd]
  · by_cases hsrc : ad.source.getD "" = "deck"
    · by_cases he : r.game_state.draw_pile.isEmpty = true
      · unfold handle_draw_from_pile GameState.draw_from_draw_pile
        dsimp only
        rw [if_neg hd, if_pos hsrc, if_pos he]
      · have hne : r.game_state.draw_pile ≠ [] := by
          simpa [List.isEmpty_iff] using he
        obtain ⟨card, heq⟩ : ∃ c, r.game_state.draw_pile.getLast? = some c :=
          ⟨_, List.getLast?_eq_getLast _ hne⟩
        unfold handle_draw_from_pile GameState.draw_from_draw_pile
        dsimp only
        rw [if_neg hd, if_pos hsrc, if_neg he, heq]
        dsimp only
        simp only [cardIds, gsCardIds, track_players, track_draw_pile, track_discard_pile,
          track_pending_draws, send_players, send_draw_pile, send_discard_pile,
          send_pending_draws]
        rw [playersHandIds_updateA_addCard _ _ card _ q hq
          (by dsimp only [Player.add_card_to_hand]; rw [handIds_addCardSlots]),
          pileIds_getLast _ card heq, ← Multiset.singleton_add, ← Multiset.singleton_add]
        abel
    · by_cases he : r.game_state.discard_pile.isEmpty = true
      · unfold handle_draw_from_pile GameState.draw_from_discard_pile
        dsimp only
        rw [if_neg hd, if_neg hsrc, if_pos he]
      · have hne : r.game_state.discard_pile ≠ [] := by
          simpa [List.isEmpty_iff] using he
        obtain ⟨card, heq⟩ : ∃ c, r.game_state.discard_pile.getLast? = some c :=
          ⟨_, List.getLast?_eq_getLast _ hne⟩
        unfold handle_draw_from_pile GameState.draw_from_discard_pile
        dsimp only
        rw [if_neg hd, if_neg hsrc, if_neg he, heq]
        dsimp only
        simp only [cardIds, gsCardIds, track_players, track_draw_pile, track_discard_pile,
          track_pending_draws, send_players, send_draw_pile, send_discard_pile,
          send_pending_draws]
        rw [playersHandIds_updateA_addCard _ _ card _ q hq
          (by dsimp only [Player.add_card_to_hand]; rw [handIds_addCardSlots]),
          pileIds_getLast _ card heq, ← Multiset.singleton_add, ← Multiset.singleton_add]
        abel

theorem check_special_game_state (now : Nat) (pid cid rank suit : String)
    (r : GameRound) :
    (check_special_card now pid cid rank suit r).game_state = r.game_state := by
  unfold check_special_card
  split
  · rfl
  · split <;> rfl

theorem cardIds_check_special_card (now : Nat) (pid cid rank suit : String)
    (r : GameRound) : cardIds (check_special_card now pid cid rank suit r) = cardIds r := by
  unfold cardIds
  rw [check_special_game_state]

theorem discard_fst (s : GameState) (c : Card) : (s.add_to_discard_pile c).1 = true := rfl

theorem discard_players (s : GameState) (c : Card) :
    (s.add_to_discard_pile c).2.players = s.players := by
  unfold GameState.add_to_discard_pile
  rw [send_players, track_players]

theorem discard_draw (s : GameState) (c : Card) :
    (s.add_to_discard_pile c).2.draw_pile = s.draw_pile := by
  unfold GameState.add_to_discard_pile
  rw [send_draw_pile, track_draw_pile]

theorem discard_discard (s : GameState) (c : Card) :
    (s.add_to_discard_pile c).2.discard_pile = s.discard_pile ++ [c] := by
  unfold GameState.add_to_discard_pile
  rw [send_discard_pile, track_discard_pile]

theorem discard_pending (s : GameState) (c : Card) :
    (s.add_to_discard_pile c).2.pending_draws = s.pending_draws := by
  unfold GameState.add_to_discard_pile
  rw [send_pending_draws, track_pending_draws]

theorem cardIds_apply_same_rank_penalty (pid : String) (r : GameRound)
    (hc : containsA r.game_state.players pid = true) :
    cardIds (apply_same_rank_penalty pid r).2 = cardIds r := by
  obtain ⟨q, hq⟩ := containsA_lookup _ _ hc
  by_cases he : r.game_state.draw_pile.isEmpty = true
  · unfold apply_same_rank_penalty
    rw [if_pos he]
  · have hne : r.game_state.draw_pile ≠ [] := by
      simpa [List.isEmpty_iff] using he
    obtain ⟨card, heq⟩ : ∃ c, r.game_state.draw_pile.getLast? = some c :=
      ⟨_, List.getLast?_eq_getLast _ hne⟩
    unfold apply_same_rank_penalty GameState.draw_from_draw_pile
    dsimp only
    rw [if_neg he, if_neg he, heq]
    dsimp only
    simp only [cardIds, gsCardIds, track_players, track_draw_pile, track_discard_pile,
      track_pending_draws, send_players, send_draw_pile, send_discard_pile,
      send_pending_draws]
    rw [playersHandIds_updateA_addCard _ _ card _ q hq
      (by dsimp only [Player.add_card_to_hand]; rw [handIds_addCardSlots]),
      pileIds_getLast _ card heq, ← Multiset.singleton_add, ← Multiset.singleton_add]
    abel

theorem cardIds_handle_same_rank_play (now : Nat) (uid : String) (ad : ActionData)
    (r : GameRound) : cardIds (handle_same_rank_play now uid ad r).2 = cardIds r := by
  unfold handle_same_rank_play
  dsimp only
  split
  · rfl
  · next player heqP =>
    split
    · rfl
    · next played heqF =>
      split
      · -- rejected: penalty draw
        apply cardIds_apply_same_rank_penalty
        unfold containsA
        rw [heqP]
        rfl
      · -- accepted: remove from hand, push to discard
        split
        · rfl
        · next removed heqR =>
          simp only [discard_fst, Bool.not_true, Bool.false_eq_true, if_false]
          simp only [cardIds, check_special_game_state, gsCardIds, discard_players,
            discard_draw, discard_discard, discard_pending]
          have hrm : removed.card_id ::ₘ playersHandIds (updateA r.game_state.players uid
              (fun p => { p with hand := (removeCardSlots player.hand (ad.card_id.getD "")).2 })) =
              playersHandIds r.game_state.players := by
            apply playersHandIds_updateA_removeCard _ _ _ _ player heqP
            exact removeCardSlots_ids _ _ _ heqR
          rw [pileIds_append_single, ← Multiset.singleton_add,
            ← hrm, ← Multiset.singleton_add]
          abel

theorem cardIds_handle_play_card (now : Nat) (pid : String) (ad : ActionData)
    (r : GameRound) : cardIds (handle_play_card now pid ad r).2 = cardIds r := by
  unfold handle_play_card
  dsimp only
  split
  · rfl
  · next player heqP =>
    split
    · rfl
    · next card_to_play card_index heqF =>
      split
      · rfl
      · next removed heqR =>
        simp only [discard_fst, Bool.not_true, Bool.false_eq_true, if_false]
        have hrm : removed.card_id ::ₘ playersHandIds (updateA r.game_state.players pid
            (fun p => { p with hand := (removeCardSlots player.hand (ad.card_id.getD "")).2 })) =
            playersHandIds r.game_state.players := by
          apply playersHandIds_updateA_removeCard _ _ _ _ player heqP
          exact removeCardSlots_ids _ _ _ heqR
        split
        · -- drawn card present with an original index: repositioned
          next dc oi heqD heqO =>
          rw [heqD] at heqO
          dsimp only at heqO
          by_cases hne : dc.card_id ≠ (ad.card_id.getD "")
          · rw [if_pos hne] at heqO
            obtain ⟨s, hs_get, hs_pred⟩ := positionSlot_spec _ _ _ heqO
            cases s with
            | none => simp at hs_pred
            | some c' =>
              simp only [Option.map_some', Option.getD_some] at hs_pred
              have hc' : c'.card_id = dc.card_id := eq_of_beq hs_pred
              have hget2 : (removeCardSlots player.hand (ad.card_id.getD "")).2.get? oi =
                  some (some c') := by
                apply removeCardSlots_get_ne _ _ _ _ hs_get
                rw [hc']
                exact hne
              simp only [cardIds, check_special_game_state, gsCardIds, discard_players,
                discard_draw, discard_discard, discard_pending]
              have hlk : lookupA (updateA r.game_state.players pid
                  (fun p => { p with hand := (removeCardSlots player.hand (ad.card_id.getD "")).2 })) pid =
                  some ({ player with hand := (removeCardSlots player.hand (ad.card_id.getD "")).2 }) := by
                rw [lookupA_updateA_self, heqP]
                rfl
              have hpres : playersHandIds (updateA (updateA r.game_state.players pid
                  (fun p => { p with hand := (removeCardSlots player.hand (ad.card_id.getD "")).2 })) pid
                  (fun p =>
                    if dc.card_id ≠ (ad.card_id.getD "") then
                      { p with
                        hand :=
                          if card_index < (p.hand.eraseIdx oi).length then
                            (p.hand.eraseIdx oi).insertIdx card_index (some dc)
                          else p.hand.eraseIdx oi ++ [some dc]
                        drawn_card := none }
                    else { p with drawn_card := none })) =
                  playersHandIds (updateA r.game_state.players pid
                    (fun p => { p with hand := (removeCardSlots player.hand (ad.card_id.getD "")).2 })) := by
                apply playersHandIds_updateA_preserve _ _ _ _ hlk
                rw [if_pos hne]
                dsimp only
                have herase : handIds (removeCardSlots player.hand (ad.card_id.getD "")).2 =
                    c'.card_id ::ₘ
                      handIds ((removeCardSlots player.hand (ad.card_id.getD "")).2.eraseIdx oi) :=
                  handIds_eraseIdx _ _ _ hget2
                by_cases hlt : card_index <
                    ((removeCardSlots player.hand (ad.card_id.getD "")).2.eraseIdx oi).length
                · rw [if_pos hlt, handIds_insertIdx _ _ _ (Nat.le_of_lt hlt), herase, hc']
                · rw [if_neg hlt, handIds_append_some, herase, hc']
              rw [hpres]
              rw [pileIds_append_single, ← Multiset.singleton_add, ← hrm,
                ← Multiset.singleton_add]
              abel
          · rw [if_neg hne] at heqO
            exact absurd heqO (by simp)
        · -- no repositioning: the register was empty or held the played card
          simp only [cardIds, check_special_game_state, gsCardIds, discard_players,
            discard_draw, discard_discard, discard_pending]
          rw [pileIds_append_single, ← Multiset.singleton_add, ← hrm,
            ← Multiset.singleton_add]
          abel

theorem cardIds_handle_queen_peek (uid : String) (ad : ActionData) (r : GameRound) :
    cardIds (handle_queen_peek uid ad r).2 = cardIds r := by
  unfold handle_queen_peek
  dsimp only
  split
  · rfl
  · split
    · rfl
    · split
      · rfl
      · next tc heqT =>
        split
        · rfl
        · simp only [cardIds, gsCardIds]
          rw [playersHandIds_updateA_handEq _ _
            (fun p => { p with cards_to_peek := [tc], status := PlayerStatus.Peeking })
            (fun p => rfl)]

theorem cardIds_handle_jack_swap (uid : String) (ad : ActionData) (r : GameRound) :
    cardIds (handle_jack_swap uid ad r).2 = cardIds r := by
  unfold handle_jack_swap
  dsimp only
  split
  · rfl
  · split
    · rfl
    · split
      · next fp sp heqFp heqSp =>
        split
        · next fc fci sc sci heqF heqS =>
          obtain ⟨hget1, hid1⟩ := findCardIdx_spec _ _ _ _ heqF
          obtain ⟨hget2, hid2⟩ := findCardIdx_spec _ _ _ _ heqS
          simp only [cardIds, gsCardIds]
          have hA := playersHandIds_updateA r.game_state.players (ad.first_player_id.getD "")
            (fun p => { p with hand := p.hand.set fci (some sc) }) fp heqFp
          have hD := handIds_set_some fp.hand fci sc fc hget1
          rw [← Multiset.singleton_add, ← Multiset.singleton_add] at hD
          by_cases hpp : ad.first_player_id.getD "" = ad.second_player_id.getD ""
          · -- both operands name the same player
            have heqSp' : lookupA (updateA r.game_state.players (ad.first_player_id.getD "")
                (fun p => { p with hand := p.hand.set fci (some sc) }))
                (ad.second_player_id.getD "") =
                some ({ fp with hand := fp.hand.set fci (some sc) }) := by
              rw [← hpp, lookupA_updateA_self, heqFp]
              rfl
            have hsp : sp = fp := by
              rw [← hpp, heqFp] at heqSp
              exact (Option.some_inj.mp heqSp).symm
            have hB := playersHandIds_updateA _ (ad.second_player_id.getD "")
              (fun p => { p with hand := p.hand.set sci (some fc) }) _ heqSp'
            have hget2' : (fp.hand.set fci (some sc)).get? sci = some (some sc) := by
              by_cases hii : fci = sci
              · subst hii
                have := List.get?_set_eq (some sc) fci fp.hand
                rw [hget1] at this
                simpa using this
              · rw [List.get?_set_ne _ _ hii]
                rw [hsp] at hget2
                exact hget2
            have hE := handIds_set_some (fp.hand.set fci (some sc)) sci fc sc hget2'
            rw [← Multiset.singleton_add, ← Multiset.singleton_add] at hE
            dsimp only at hB
            have key : playersHandIds (updateA (updateA r.game_state.players
                (ad.first_player_id.getD "")
                (fun p => { p with hand := p.hand.set fci (some sc) }))
                (ad.second_player_id.getD "")
                (fun p => { p with hand := p.hand.set sci (some fc) })) +
                ({sc.card_id} + handIds fp.hand + handIds (fp.hand.set fci (some sc))) =
                playersHandIds r.game_state.players +
                ({sc.card_id} + handIds fp.hand + handIds (fp.hand.set fci (some sc))) := by
              calc playersHandIds (updateA (updateA r.game_state.players
                  (ad.first_player_id.getD "")
                  (fun p => { p with hand := p.hand.set fci (some sc) }))
                  (ad.second_player_id.getD "")
                  (fun p => { p with hand := p.hand.set sci (some fc) })) +
                  ({sc.card_id} + handIds fp.hand + handIds (fp.hand.set fci (some sc)))
                  = (playersHandIds (updateA (updateA r.game_state.players
                      (ad.first_player_id.getD "")
                      (fun p => { p with hand := p.hand.set fci (some sc) }))
                      (ad.second_player_id.getD "")
                      (fun p => { p with hand := p.hand.set sci (some fc) })) +
                      handIds (fp.hand.set fci (some sc))) +
                      ({sc.card_id} + handIds fp.hand) := by abel
                _ = (playersHandIds (updateA r.game_state.players
                      (ad.first_player_id.getD "")
                      (fun p => { p with hand := p.hand.set fci (some sc) })) +
                      handIds ((fp.hand.set fci (some sc)).set sci (some fc))) +
                      ({sc.card_id} + handIds fp.hand) := by rw [hB]
                _ = (playersHandIds (updateA r.game_state.players
                      (ad.first_player_id.getD "")
                      (fun p => { p with hand := p.hand.set fci (some sc) })) +
                      handIds fp.hand) +
                      ({sc.card_id} + handIds ((fp.hand.set fci (some sc)).set sci (some fc))) := by
                    abel
                _ = (playersHandIds r.game_state.players + handIds (fp.hand.set fci (some sc))) +
                      ({fc.card_id} + handIds (fp.hand.set fci (some sc))) := by rw [hA, hE]
                _ = (playersHandIds r.game_state.players + handIds (fp.hand.set fci (some sc))) +
                      ({sc.card_id} + handIds fp.hand) := by rw [← hD]
                _ = playersHandIds r.game_state.players +
                      ({sc.card_id} + handIds fp.hand + handIds (fp.hand.set fci (some sc))) := by
                    abel
            rw [add_right_cancel key]
          · -- two distinct players
            have heqSp' : lookupA (updateA r.game_state.players (ad.first_player_id.getD "")
                (fun p => { p with hand := p.hand.set fci (some sc) }))
                (ad.second_player_id.getD "") = some sp := by
              rw [lookupA_updateA_ne _ _ _ _ hpp]
              exact heqSp
            have hB := playersHandIds_updateA _ (ad.second_player_id.getD "")
              (fun p => { p with hand := p.hand.set sci (some fc) }) _ heqSp'
            have hE := handIds_set_some sp.hand sci fc sc hget2
            rw [← Multiset.singleton_add, ← Multiset.singleton_add] at hE
            dsimp only at hB
            have key : playersHandIds (updateA (updateA r.game_state.players
                (ad.first_player_id.getD "")
                (fun p => { p with hand := p.hand.set fci (some sc) }))
                (ad.second_player_id.getD "")
                (fun p => { p with hand := p.hand.set sci (some fc) })) +
                ({fc.card_id} + {sc.card_id} + handIds fp.hand + handIds sp.hand) =
                playersHandIds r.game_state.players +
                ({fc.card_id} + {sc.card_id} + handIds fp.hand + handIds sp.hand) := by
              calc playersHandIds (updateA (updateA r.game_state.players
                  (ad.first_player_id.getD "")
                  (fun p => { p with hand := p.hand.set fci (some sc) }))
                  (ad.second_player_id.getD "")
                  (fun p => { p with hand := p.hand.set sci (some fc) })) +
                  ({fc.card_id} + {sc.card_id} + handIds fp.hand + handIds sp.hand)
                  = (playersHandIds (updateA (updateA r.game_state.players
                      (ad.first_player_id.getD "")
                      (fun p => { p with hand := p.hand.set fci (some sc) }))
                      (ad.second_player_id.getD "")
                      (fun p => { p with hand := p.hand.set sci (some fc) })) +
                      handIds sp.hand) +
                      ({fc.card_id} + {sc.card_id} + handIds fp.hand) := by abel
                _ = (playersHandIds (updateA r.game_state.players
                      (ad.first_player_id.getD "")
                      (fun p => { p with hand := p.hand.set fci (some sc) })) +
                      handIds (sp.hand.set sci (some fc))) +
                      ({fc.card_id} + {sc.card_id} + handIds fp.hand) := by rw [hB]
                _ = (playersHandIds (updateA r.game_state.players
                      (ad.first_player_id.getD "")
                      (fun p => { p with hand := p.hand.set fci (some sc) })) +
                      handIds fp.hand) +
                      ({fc.card_id} + ({sc.card_id} + handIds (sp.hand.set sci (some fc)))) := by
                    abel
                _ = (playersHandIds r.game_state.players +
                      handIds (fp.hand.set fci (some sc))) +
                      ({fc.card_id} + ({fc.card_id} + handIds sp.hand)) := by rw [hA, hE]
                _ = (playersHandIds r.game_state.players + handIds sp.hand + {fc.card_id}) +
                      ({fc.card_id} + handIds (fp.hand.set fci (some sc))) := by abel
                _ = (playersHandIds r.game_state.players + handIds sp.hand + {fc.card_id}) +
                      ({sc.card_id} + handIds fp.hand) := by rw [hD]
                _ = playersHandIds r.game_state.players +
                      ({fc.card_id} + {sc.card_id} + handIds fp.hand + handIds sp.hand) := by
                    abel
            rw [add_right_cancel key]
        · rfl
      · rfl

theorem cardIds_route_action (now : Nat) (action uid : String) (ad : ActionData)
    (r : GameRound) (hc : containsA r.game_state.players uid = true) :
    cardIds (route_action now action uid ad r).2.1 = cardIds r := by
  unfold route_action
  split
  · exact cardIds_handle_draw_from_pile _ _ _ hc
  · split
    · dsimp only
      rw [cardIds_handle_same_rank_window, cardIds_handle_play_card]
    · split
      · exact cardIds_handle_same_rank_play _ _ _ _
      · split
        · rfl
        · split
          · rfl
          · split
            · rfl
            · split
              · exact cardIds_handle_jack_swap _ _ _
              · split
                · exact cardIds_handle_queen_peek _ _ _
                · rfl

theorem cardIds_on_player_action (now : Nat) (sid : String) (req : ActionRequest)
    (r : GameRound) : cardIds (on_player_action now sid req r).2.1 = cardIds r := by
  unfold on_player_action
  dsimp only
  split
  · rfl
  · split
    · rfl
    · next h =>
      have hc : containsA r.game_state.players (extract_user_id sid req) = true := by
        revert h
        cases containsA r.game_state.players (extract_user_id sid req) <;> simp
      split
      · exact cardIds_route_action _ _ _ _ _ hc
      · exact cardIds_route_action _ _ _ _ _ hc

theorem cardIds_step_event (e : GEvent) (r : GameRound) :
    cardIds (step_event e r) = cardIds r := by
  cases e with
  | act now sid req => exact cardIds_on_player_action now sid req r
  | sameRankTimeout now => exact cardIds_end_same_rank_window now r
  | specialTimeout now => exact cardIds_on_special_card_timer_expired now r
  | turnStart now => exact cardIds_start_turn now r
  | turnContinue now => exact cardIds_continue_turn now r

/-- C1 counterexample: the multiset of the claim — which counts the
drawn-card registers and peek buffers alongside the hand slots and piles —
is not conserved, and a card id does appear in two locations at once.  On a
table whose draw pile holds the single card `c2` and whose player P1 has an
empty hand, the accepted `draw_from_deck` action leaves `c2` both in P1's
hand and in P1's drawn-card register (the register holds a copy), so its
multiplicity in the claim's multiset rises from 1 to 2. -/
theorem C1_full_multiset_not_conserved :
    (on_player_action 3 "P1" drawDeckReq dupRound).1 = true ∧
    Multiset.count "c2" (cardIdsFull dupRound) = 1 ∧
    Multiset.count "c2" (cardIdsFull (step_event (GEvent.act 3 "P1" drawDeckReq) dupRound)) = 2 ∧
    cardIdsFull (step_event (GEvent.act 3 "P1" drawDeckReq) dupRound) ≠ cardIdsFull dupRound := by
  decide

/-- C1 (amended): card conservation over the canonically-held locations.
For every run of engine events (player actions, the two timer callbacks,
and the public start-turn / continue-turn entry points) from any state, the
multiset of card ids across all hand slots, the draw pile, the discard
pile, and the pending-draws map is unchanged — in particular it always
equals that multiset of the state the game started from.  The drawn-card
register and the peek buffer hold copies of cards that are simultaneously
counted in a hand, so they are excluded from the conserved multiset. -/
theorem C1_card_conservation (evs : List GEvent) (r : GameRound) :
    cardIds (run_events evs r) = cardIds r := by
  induction evs generalizing r with
  | nil => rfl
  | cons e evs ih =>
    show cardIds (run_events evs (step_event e r)) = cardIds r
    rw [ih, cardIds_step_event]

/-- C2: positional hand identity fails in the code.  P1's hand is
`[c5, c6, c9]` with `c9` the drawn card; playing `c5` (slot 0, drawn card
at slot 2, distinct) should per the claim leave `[c9, c6, hole]` — the
drawn card in the vacated slot 0 and slot 1 untouched.  The code's
`Vec::remove` / `insert` repositioning instead yields `[c9, hole, c6]`:
slot 1's occupant changes from `c6` to a hole and `c6` shifts to slot 2.
The play is accepted, so this is the post-state of a successful
`play_card`. -/
theorem C2_positional_identity_bug :
    (on_player_action 7 "P1" (playReq "c5") bugRound).1 = true ∧
    (lookupA (on_player_action 7 "P1" (playReq "c5") bugRound).2.1.game_state.players
      "P1").map Player.hand = some [some cNine, none, some cSix] ∧
    ([some cNine, none, some cSix] : List (Option Card)) ≠
      [some cNine, some cSix, none] := by
  decide

/-- C3 counterexample: a concrete run in which the recall trigger fires and
the engine ends the game, yet a later event re-enters `player_turn`.  B has
called recall; the first `continue_turn` advances the pointer to B and ends
the match (`game_ended`, A wins on points).  The dispatcher accepts actions
after game end: A (status `winner`, still active) plays a card, the
same-rank window opens, and its timer expiry walks
`ending_round → _move_to_next_player` — entered while the pointer still
equals the recall caller B — and starts a new turn: the phase returns to
`player_turn`. -/
theorem C3_recall_reentry_cex :
    recallRound.game_state.recall_called_by = some "B" ∧
    (run_events [recallE1] recallRound).game_state.phase = GamePhase.GameEnded ∧
    (run_events [recallE1, recallE2] recallRound).game_state.current_player_id = some "B" ∧
    (run_events [recallE1, recallE2] recallRound).game_state.recall_called_by = some "B" ∧
    (run_events [recallE1, recallE2, recallE3] recallRound).game_state.phase =
      GamePhase.PlayerTurn := by
  decide

/-- C5 counterexample: a `play_card` naming a card absent from the actor's
hand is rejected (`false`) but does not leave the state unchanged — the
dispatcher opens the same-rank window regardless, so the phase moves from
`player_turn` to `same_rank_window`. -/
theorem C5_rejected_play_mutates_state :
    (on_player_action 7 "P1" (playReq "zz") bugRound).1 = false ∧
    bugRound.game_state.phase = GamePhase.PlayerTurn ∧
    (on_player_action 7 "P1" (playReq "zz") bugRound).2.1.game_state.phase =
      GamePhase.SameRankWindow ∧
    (on_player_action 7 "P1" (playReq "zz") bugRound).2.1 ≠ bugRound := by
  decide

/-- C7 counterexample: a complete turn with no special cards traverses
`player_turn, same_rank_window, ending_round` — which is a prefix of
neither admissible chain of the claim, because `turn_pending_events` (and
`special_play_window`) are skipped entirely. -/
theorem C7_phase_prefix_cex :
    firstTurnPhases [turnE1, turnE2, turnE3] oneTurnRound =
      [GamePhase.PlayerTurn, GamePhase.SameRankWindow, GamePhase.EndingRound] ∧
    (firstTurnPhases [turnE1, turnE2, turnE3] oneTurnRound).isPrefixOf
      chainWithSpecial = false ∧
    (firstTurnPhases [turnE1, turnE2, turnE3] oneTurnRound).isPrefixOf
      chainWithoutSpecial = false := by
  decide

/-- C8 counterexample: a successful jack swap does not update the
`owner_id` references (the source leaves ownership update as a
placeholder).  After swapping `x1` (P1's, owner_id "P1") with `y2` (P2's),
`x1` sits in P2's hand with `owner_id` still `some "P1"`. -/
theorem C8_owner_id_not_updated :
    (handle_jack_swap "P1" swapData swapRound).1 = true ∧
    ((lookupA (handle_jack_swap "P1" swapData swapRound).2.game_state.players "P2").map
      (fun p => p.hand.get? 1)) = some (some (some jc1)) ∧
    jc1.owner_id = some "P1" ∧ (some "P1" : Option String) ≠ some "P2" := by
  decide

/-- C9 counterexample: the resolver's verdict depends on the iteration
order of the `player_results` HashMap — which Rust does not fix for
identical map contents across runs.  With two zero-card entries, one order
crowns A and the reversed order crowns B. -/
theorem C9_resolver_order_dependent :
    ([zA, zB] : List PlayerResult).Perm [zB, zA] ∧
    determine_winner none [zA, zB] ≠ determine_winner none [zB, zA] ∧
    (determine_winner none [zA, zB]).winner_id = some "A" ∧
    (determine_winner none [zB, zA]).winner_id = some "B" := by
  decide

/-! ### Capacity invariant (C10) -/

theorem insertA_length_le {β : Type} (l : List (String × β)) (k : String) (v : β) :
    (insertA l k v).length ≤ l.length + 1 := by
  induction l with
  | nil => simp [insertA]
  | cons kv rest ih =>
    by_cases hk : kv.1 = k
    · simp [insertA, hk]
    · simp only [insertA, if_neg hk, List.length_cons]
      omega

theorem removeA_length_le {β : Type} (l : List (String × β)) (k : String) :
    (removeA l k).2.length ≤ l.length := by
  induction l with
  | nil => simp [removeA]
  | cons kv rest ih =>
    by_cases hk : kv.1 = k
    · simp [removeA, hk]
    · simp only [removeA, if_neg hk, List.length_cons]
      omega

theorem gs_step_max (e : GSEvent) (s : GameState) :
    (gs_step e s).max_players = s.max_players := by
  cases e with
  | addP p sid =>
    unfold gs_step GameState.add_player
    dsimp only
    split
    · rfl
    · split
      · rfl
      · rfl
  | removeP pid =>
    unfold gs_step GameState.remove_player
    dsimp only
    split
    · split <;> rfl
    · rfl
  | updSession pid sid =>
    unfold gs_step GameState.update_player_session
    dsimp only
    split
    · rfl
    · split <;> rfl
  | rmSession sid =>
    unfold gs_step GameState.remove_session
    dsimp only
    split <;> rfl

theorem gs_step_capacity (e : GSEvent) (s : GameState)
    (h : s.players.length ≤ s.max_players) :
    (gs_step e s).players.length ≤ s.max_players := by
  cases e with
  | addP p sid =>
    unfold gs_step GameState.add_player
    dsimp only
    split
    · exact h
    · next hlt =>
      have hlt' : s.players.length < s.max_players := by omega
      have hins := insertA_length_le s.players p.player_id p
      split
      · dsimp only
        omega
      · dsimp only
        omega
  | removeP pid =>
    unfold gs_step GameState.remove_player
    dsimp only
    have hrm := removeA_length_le s.players pid
    split
    · split
      · dsimp only
        omega
      · dsimp only
        omega
    · exact h
  | updSession pid sid =>
    unfold gs_step GameState.update_player_session
    dsimp only
    split
    · exact h
    · split <;> exact h
  | rmSession sid =>
    unfold gs_step GameState.remove_session
    dsimp only
    split <;> exact h

theorem run_gs_capacity (evs : List GSEvent) (s : GameState)
    (h : s.players.length ≤ s.max_players) :
    (run_gs evs s).players.length ≤ (run_gs evs s).max_players := by
  induction evs generalizing s with
  | nil => exact h
  | cons e evs ih =>
    show (run_gs evs (gs_step e s)).players.length ≤ (run_gs evs (gs_step e s)).max_players
    apply ih
    rw [gs_step_max]
    exact gs_step_capacity e s h

/-- C10: player-count capacity.  (1) When the table already holds
`max_players` players (or more), `add_player` returns `false` and leaves
the whole state — the players map and both session maps included —
unchanged.  (2) Consequently every table state reachable from a fresh
table through the player/session operations satisfies
`players.len() ≤ max_players`. -/
theorem C10_capacity :
    (∀ (s : GameState) (p : Player) (sid : Option String),
      s.max_players ≤ s.players.length → s.add_player p sid = (false, s)) ∧
    (∀ (gid : String) (mx mn : Nat) (perm : String) (evs : List GSEvent),
      (run_gs evs (GameState.new gid mx mn perm)).players.length ≤ mx) := by
  constructor
  · intro s p sid h
    unfold GameState.add_player
    rw [if_pos h]
  · intro gid mx mn perm evs
    have h := run_gs_capacity evs (GameState.new gid mx mn perm) (by simp [GameState.new])
    have hmx : (run_gs evs (GameState.new gid mx mn perm)).max_players = mx := by
      have : ∀ (l : List GSEvent) (s : GameState),
          (run_gs l s).max_players = s.max_players := by
        intro l
        induction l with
        | nil => intro s; rfl
        | cons e l ih =>
          intro s
          show (run_gs l (gs_step e s)).max_players = s.max_players
          rw [ih, gs_step_max]
      rw [this]
      rfl
    rw [hmx] at h
    exact h

/-- C10 witness: a table with capacity 2 already holding two players
rejects a third, unchanged. -/
theorem C10_capacity_witness :
    fullState.max_players ≤ fullState.players.length ∧
    fullState.add_player wNewPlayer none = (false, fullState) :=
  ⟨by decide, C10_capacity.1 fullState wNewPlayer none (by decide)⟩

/-! ### Winner cascade (C6) -/

theorem find?_zero_of_noZero (entries : List PlayerResult)
    (h : ∀ x ∈ entries, x.card_count ≠ 0) :
    entries.find? (fun e => e.card_count == 0) = none := by
  rw [List.find?_eq_none]
  intro x hx
  simp only [beq_iff_eq]
  exact h x hx

/-- When no entry has an empty hand and exactly one entry attains the
minimum, the resolver's verdict is that entry with reason
`lowest_points`. -/
theorem determine_winner_unique_min (rc : Option String) (entries : List PlayerResult)
    (e : PlayerResult) (hz : ∀ x ∈ entries, x.card_count ≠ 0)
    (hfil : tiedAtMin entries = [e]) :
    determine_winner rc entries =
      { is_tie := false, winner_id := some e.player_id,
        winner_name := some e.player_name, win_reason := "lowest_points",
        winners := [] } := by
  have hnone := find?_zero_of_noZero entries hz
  unfold determine_winner
  rw [hnone]
  unfold tiedAtMin minPointsOf at hfil
  dsimp only
  rw [hfil]

/-- C6: the resolver's verdict is the ordered four-rule cascade, first
match winning.  (1) If some entry has `card_count = 0`, the verdict is a
non-tie with reason `no_cards` won by such an entry.  (2) Otherwise, if
exactly one entry attains the minimum `total_points`, that entry wins with
reason `lowest_points`.  (3) Otherwise, if the recall caller is among the
tied entries, the caller wins with reason `recall_caller_lowest_points`.
(4) Otherwise the verdict is a tie carrying every tied entry's name and no
winner id. -/
theorem C6_winner_cascade (rc : Option String) (entries : List PlayerResult) :
    ((∃ e ∈ entries, e.card_count = 0) →
      (determine_winner rc entries).is_tie = false ∧
      (determine_winner rc entries).win_reason = "no_cards" ∧
      ∃ e ∈ entries, e.card_count = 0 ∧
        (determine_winner rc entries).winner_id = some e.player_id ∧
        (determine_winner rc entries).winner_name = some e.player_name) ∧
    (∀ e, (∀ x ∈ entries, x.card_count ≠ 0) → tiedAtMin entries = [e] →
      determine_winner rc entries =
        { is_tie := false, winner_id := some e.player_id,
          winner_name := some e.player_name, win_reason := "lowest_points",
          winners := [] }) ∧
    (∀ c, (∀ x ∈ entries, x.card_count ≠ 0) → (tiedAtMin entries).length ≠ 1 →
      rc = some c → c ∈ (tiedAtMin entries).map (fun e => e.player_id) →
      (determine_winner rc entries).is_tie = false ∧
      (determine_winner rc entries).win_reason = "recall_caller_lowest_points" ∧
      (determine_winner rc entries).winner_id = some c) ∧
    ((∀ x ∈ entries, x.card_count ≠ 0) → (tiedAtMin entries).length ≠ 1 →
      (∀ c, rc = some c → c ∉ (tiedAtMin entries).map (fun e => e.player_id)) →
      determine_winner rc entries =
        { is_tie := true, winner_id := none, winner_name := none,
          win_reason := "tie_lowest_points",
          winners := (tiedAtMin entries).map (fun e => e.player_name) }) := by
  refine ⟨?_, ?_, ?_, ?_⟩
  · intro ⟨e, he, hz⟩
    have hsome : (entries.find? (fun e => e.card_count == 0)).isSome := by
      rw [List.find?_isSome]
      exact ⟨e, he, by simpa using hz⟩
    obtain ⟨e', he'⟩ := Option.isSome_iff_exists.mp hsome
    have hmem := List.mem_of_find?_eq_some he'
    have hz' : e'.card_count = 0 := by
      have := List.find?_some he'
      simpa using this
    unfold determine_winner
    rw [he']
    exact ⟨rfl, rfl, e', hmem, hz', rfl, rfl⟩
  · intro e hz hfil
    exact determine_winner_unique_min rc entries e hz hfil
  · intro c hz hlen hrc hmem
    have hnone := find?_zero_of_noZero entries hz
    unfold tiedAtMin minPointsOf at hlen hmem
    have hfind : ∃ e', (entries.filter (fun e => e.total_points ==
        listMinD (entries.map (fun e => e.total_points)) 0)).find?
        (fun e => e.player_id == c) = some e' := by
      apply Option.isSome_iff_exists.mp
      rw [List.find?_isSome]
      obtain ⟨e, he, hid⟩ := List.mem_map.mp hmem
      exact ⟨e, he, by simpa using hid⟩
    obtain ⟨e', he'⟩ := hfind
    have hid' : e'.player_id = c := by
      have := List.find?_some he'
      simpa using this
    unfold determine_winner
    rw [hnone]
    dsimp only
    cases hfil : entries.filter (fun e => e.total_points ==
        listMinD (entries.map (fun e => e.total_points)) 0) with
    | nil =>
      rw [hfil] at he'
      simp [List.find?] at he'
    | cons x xs =>
      cases xs with
      | nil =>
        rw [hfil] at hlen
        simp at hlen
      | cons y ys =>
        rw [hfil] at he'
        rw [hrc]
        dsimp only
        rw [he']
        exact ⟨rfl, rfl, by dsimp only; rw [hid']⟩
  · intro hz hlen hnot
    have hnone := find?_zero_of_noZero entries hz
    unfold tiedAtMin minPointsOf at hlen hnot ⊢
    unfold determine_winner
    rw [hnone]
    dsimp only
    cases hfil : entries.filter (fun e => e.total_points ==
        listMinD (entries.map (fun e => e.total_points)) 0) with
    | nil =>
      cases rc with
      | none => rfl
      | some c => rfl
    | cons x xs =>
      cases xs with
      | nil =>
        rw [hfil] at hlen
        simp at hlen
      | cons y ys =>
        cases rc with
        | none => rfl
        | some c =>
          have hfn : (x :: y :: ys).find? (fun e => e.player_id == c) = none := by
            rw [List.find?_eq_none]
            intro a ha
            simp only [beq_iff_eq]
            intro hac
            apply hnot c rfl
            rw [hfil]
            exact List.mem_map.mpr ⟨a, ha, hac⟩
          dsimp only
          rw [hfn]

/-- C6 witness: scenario S6 — Ann and Bob tie at 6 points, Cid holds 10,
Ann called recall; rule 3 crowns Ann with reason
`recall_caller_lowest_points`. -/
theorem C6_winner_cascade_witness :
    (∀ x ∈ [wEntryA, wEntryB, wEntryC], x.card_count ≠ 0) ∧
    (tiedAtMin [wEntryA, wEntryB, wEntryC]).length ≠ 1 ∧
    "A" ∈ (tiedAtMin [wEntryA, wEntryB, wEntryC]).map (fun e => e.player_id) ∧
    (determine_winner (some "A") [wEntryA, wEntryB, wEntryC]).is_tie = false ∧
    (determine_winner (some "A") [wEntryA, wEntryB, wEntryC]).win_reason =
      "recall_caller_lowest_points" ∧
    (determine_winner (some "A") [wEntryA, wEntryB, wEntryC]).winner_id = some "A" := by
  have h := (C6_winner_cascade (some "A") [wEntryA, wEntryB, wEntryC]).2.2.1 "A"
    (by decide) (by decide) rfl (by decide)
  exact ⟨by decide, by decide, by decide, h.1, h.2.1, h.2.2⟩

/-! ### Resolver order-invariance on the decisive cases (C9) -/

theorem foldl_min_le_head : ∀ (xs : List Nat) (x : Nat), xs.foldl Nat.min x ≤ x
  | [], x => le_refl x
  | a :: xs, x =>
    le_trans (foldl_min_le_head xs (Nat.min x a)) (Nat.min_le_left x a)

theorem foldl_min_mem : ∀ (xs : List Nat) (x : Nat),
    xs.foldl Nat.min x = x ∨ xs.foldl Nat.min x ∈ xs
  | [], _ => Or.inl rfl
  | a :: xs, x => by
    rw [List.foldl_cons]
    rcases foldl_min_mem xs (Nat.min x a) with h | h
    · by_cases hxa : x ≤ a
      · have hm : Nat.min x a = x := Nat.min_eq_left hxa
        rw [hm] at h ⊢
        exact Or.inl h
      · have hm : Nat.min x a = a := Nat.min_eq_right (by omega)
        rw [hm] at h ⊢
        refine Or.inr ?_
        rw [h]
        exact List.mem_cons_self a xs
    · exact Or.inr (List.mem_cons_of_mem a h)

theorem foldl_min_le_mem : ∀ (xs : List Nat) (x y : Nat), y ∈ xs →
    xs.foldl Nat.min x ≤ y
  | [], _, _, hy => absurd hy (List.not_mem_nil _)
  | a :: xs, x, y, hy => by
    rw [List.foldl_cons]
    rcases List.mem_cons.mp hy with h | h
    · subst h
      exact le_trans (foldl_min_le_head xs (Nat.min x y)) (Nat.min_le_right x y)
    · exact foldl_min_le_mem xs (Nat.min x a) y h

theorem listMinD_mem (l : List Nat) (h : l ≠ []) : listMinD l 0 ∈ l := by
  cases l with
  | nil => exact absurd rfl h
  | cons x xs =>
    have hdef : listMinD (x :: xs) 0 = xs.foldl Nat.min x := rfl
    rw [hdef]
    rcases foldl_min_mem xs x with h' | h'
    · rw [h']
      exact List.mem_cons_self x xs
    · exact List.mem_cons_of_mem x h'

theorem listMinD_le (l : List Nat) (y : Nat) (hy : y ∈ l) : listMinD l 0 ≤ y := by
  cases l with
  | nil => exact absurd hy (List.not_mem_nil _)
  | cons x xs =>
    have hdef : listMinD (x :: xs) 0 = xs.foldl Nat.min x := rfl
    rw [hdef]
    rcases List.mem_cons.mp hy with h | h
    · subst h
      exact foldl_min_le_head xs y
    · exact foldl_min_le_mem xs x y h

theorem listMinD_perm (l l' : List Nat) (hperm : l.Perm l') (hne : l ≠ []) :
    listMinD l 0 = listMinD l' 0 := by
  have hne' : l' ≠ [] := by
    intro h0
    subst h0
    exact hne (List.Perm.eq_nil hperm)
  apply le_antisymm
  · exact listMinD_le l _ (hperm.mem_iff.mpr (listMinD_mem l' hne'))
  · exact listMinD_le l' _ (hperm.mem_iff.mp (listMinD_mem l hne))

theorem minPointsOf_perm (l l' : List PlayerResult) (hperm : l.Perm l')
    (hne : l ≠ []) : minPointsOf l = minPointsOf l' := by
  unfold minPointsOf
  apply listMinD_perm _ _ (hperm.map _)
  simpa using hne

/-- C9 (amended): the resolver is a pure function of its input entries and
the recall-caller id, so for identical inputs presented in the same
iteration order the verdict is identical; moreover the verdict is
independent of the iteration order whenever no entry has an empty hand and
exactly one entry attains the minimal total points (both runs then return
that entry with reason `lowest_points`).  With identical contents but
different iteration orders the verdict can differ on the other cases —
two empty-handed entries, or a tie — as the counterexample shows. -/
theorem C9_resolver_determinism (rc : Option String) (l l' : List PlayerResult)
    (hperm : l.Perm l') (hz : ∀ x ∈ l, x.card_count ≠ 0) (e : PlayerResult)
    (huniq : tiedAtMin l = [e]) :
    determine_winner rc l = determine_winner rc l' := by
  have hz' : ∀ x ∈ l', x.card_count ≠ 0 := fun x hx => hz x (hperm.mem_iff.mpr hx)
  have hne : l ≠ [] := by
    intro h0
    subst h0
    simp [tiedAtMin] at huniq
  have hmin := minPointsOf_perm l l' hperm hne
  have hfilperm : (tiedAtMin l).Perm (tiedAtMin l') := by
    unfold tiedAtMin
    rw [← hmin]
    exact hperm.filter _
  have huniq' : tiedAtMin l' = [e] := by
    rw [huniq] at hfilperm
    exact (List.perm_singleton.mp hfilperm.symm).symm ▸ rfl
  rw [determine_winner_unique_min rc l e hz huniq,
    determine_winner_unique_min rc l' e hz' huniq']

/-- C9 witness: two orders of the same two-entry map (points 3 and 7, no
empty hands, unique minimum) produce the identical verdict. -/
theorem C9_resolver_determinism_witness :
    ([wMinA, wMinB] : List PlayerResult).Perm [wMinB, wMinA] ∧
    (∀ x ∈ ([wMinA, wMinB] : List PlayerResult), x.card_count ≠ 0) ∧
    tiedAtMin [wMinA, wMinB] = [wMinA] ∧
    determine_winner none [wMinA, wMinB] = determine_winner none [wMinB, wMinA] := by
  refine ⟨by decide, by decide, by decide, ?_⟩
  exact C9_resolver_determinism none [wMinA, wMinB] [wMinB, wMinA] (by decide)
    (by decide) wMinA (by decide)

/-! ### Recall termination (C3) -/

theorem handle_end_of_match_phase (r : GameRound) :
    (handle_end_of_match r).1.game_state.phase = GamePhase.GameEnded := by
  unfold handle_end_of_match
  dsimp only
  split
  · rfl
  · split <;> rfl

theorem handle_end_of_match_log (r : GameRound) :
    (handle_end_of_match r).2 = [GamePhase.GameEnded] := rfl

theorem start_turn_log (now : Nat) (r : GameRound) :
    (start_turn now r).2 = [GamePhase.PlayerTurn] := rfl

/-- C3 (amended): when a recall caller id is set and the cyclically
advanced new current player computed by `_move_to_next_player` equals the
caller, that invocation hands control to end-of-match — the phase becomes
`game_ended`, and the phase-write log of the invocation is exactly
`[game_ended]` (no `player_turn` is started in that call).  The guarantee
is per-invocation: the dispatcher keeps accepting actions after game end,
and a later pass through `_move_to_next_player` can start a new turn, as
the counterexample run shows. -/
theorem C3_recall_end_of_match (now : Nat) (r : GameRound) (c : String)
    (hne : r.game_state.players.isEmpty = false)
    (hact : (active_player_ids r.game_state).isEmpty = false)
    (hrc : r.game_state.recall_called_by = some c)
    (hnext : next_active_player_id r.game_state = some c) :
    (move_to_next_player now r).1.game_state.phase = GamePhase.GameEnded ∧
    (move_to_next_player now r).2 = [GamePhase.GameEnded] := by
  unfold move_to_next_player
  rw [if_neg (by rw [hne]; exact Bool.false_ne_true),
    if_neg (by rw [hact]; exact Bool.false_ne_true)]
  have hgetD : (next_active_player_id r.game_state).getD "" = c := by
    rw [hnext]
    rfl
  split
  · dsimp only
    rw [hrc]
    dsimp only
    rw [hgetD, if_pos rfl]
    exact ⟨handle_end_of_match_phase _, handle_end_of_match_log _⟩
  · dsimp only
    rw [hrc]
    dsimp only
    rw [hgetD, if_pos rfl]
    exact ⟨handle_end_of_match_phase _, handle_end_of_match_log _⟩

/-- C3 witness: the recall caller is the single active player; advancing
cyclically lands on the caller again and the invocation ends the match. -/
theorem C3_recall_end_of_match_witness :
    wRecallRound.game_state.recall_called_by = some "A" ∧
    next_active_player_id wRecallRound.game_state = some "A" ∧
    (move_to_next_player 0 wRecallRound).1.game_state.phase = GamePhase.GameEnded ∧
    (move_to_next_player 0 wRecallRound).2 = [GamePhase.GameEnded] := by
  have h := C3_recall_end_of_match 0 wRecallRound "A" (by decide) (by decide) rfl (by decide)
  exact ⟨rfl, by decide, h.1, h.2⟩

/-! ### Same-rank validity round-trip (C4) -/

theorem filterMap_addCardSlots_length (h : List (Option Card)) (c : Card) :
    ((addCardSlots h c).filterMap id).length = (h.filterMap id).length + 1 := by
  induction h with
  | nil => rfl
  | cons s rest ih =>
    cases s with
    | none => simp [addCardSlots]
    | some x => simp [addCardSlots, ih]

/-- C4: the same-rank validity round-trip.  Fix an actor who holds the
offered card `c`.  (a) If the top of the discard pile has the same rank as
`c` under the case-insensitive canonical string compare, the play is
accepted.  (b) If the discard pile holds exactly one card, the play is
accepted unconditionally.  (c) If the pile holds at least two cards and the
ranks differ, the play is rejected and the actor's count of occupied hand
slots grows by exactly one iff the draw pile was non-empty (the penalty is
a no-op on an empty draw pile). -/
theorem C4_same_rank_round_trip (now : Nat) (uid : String) (ad : ActionData)
    (r : GameRound) (player : Player) (c : Card)
    (hp : lookupA r.game_state.players uid = some player)
    (hf : findCardInHand player.hand (ad.card_id.getD "") = some c) :
    (∀ t, r.game_state.discard_pile.getLast? = some t →
      strToLower c.rank.to_string = strToLower t.rank.to_string →
      (handle_same_rank_play now uid ad r).1 = true) ∧
    (r.game_state.discard_pile.length = 1 →
      (handle_same_rank_play now uid ad r).1 = true) ∧
    (∀ t, r.game_state.discard_pile.getLast? = some t →
      2 ≤ r.game_state.discard_pile.length →
      strToLower c.rank.to_string ≠ strToLower t.rank.to_string →
      (handle_same_rank_play now uid ad r).1 = false ∧
      ∃ q, lookupA (handle_same_rank_play now uid ad r).2.game_state.players uid =
          some q ∧
        (q.hand.filterMap id).length = (player.hand.filterMap id).length +
          (if r.game_state.draw_pile = [] then 0 else 1)) := by
  have hnonempty_of_last : ∀ t : Card, r.game_state.discard_pile.getLast? = some t →
      r.game_state.discard_pile.isEmpty = false := by
    intro t ht
    cases hD : r.game_state.discard_pile with
    | nil => rw [hD] at ht; simp at ht
    | cons x xs => rfl
  have haccept : validate_same_rank_play r.game_state c.rank.to_string = true →
      (handle_same_rank_play now uid ad r).1 = true := by
    intro hv
    unfold handle_same_rank_play
    dsimp only
    rw [hp]
    dsimp only
    rw [hf]
    dsimp only
    rw [hv]
    simp only [Bool.not_true, Bool.false_eq_true, if_false]
    rw [removeCardSlots_fst_eq_find, hf]
    simp only [discard_fst, Bool.not_true, Bool.false_eq_true, if_false]
  refine ⟨?_, ?_, ?_⟩
  · intro t ht hmatch
    apply haccept
    unfold validate_same_rank_play
    rw [if_neg (by rw [hnonempty_of_last t ht]; exact Bool.false_ne_true), ht]
    dsimp only
    by_cases hlen : r.game_state.discard_pile.length = 1
    · rw [if_pos hlen]
    · rw [if_neg hlen]
      exact beq_iff_eq.mpr hmatch
  · intro hlen
    apply haccept
    have hne : r.game_state.discard_pile ≠ [] := by
      intro h0
      rw [h0] at hlen
      simp at hlen
    obtain ⟨t, ht⟩ : ∃ t, r.game_state.discard_pile.getLast? = some t :=
      ⟨_, List.getLast?_eq_getLast _ hne⟩
    unfold validate_same_rank_play
    rw [if_neg (by rw [hnonempty_of_last t ht]; exact Bool.false_ne_true), ht]
    dsimp only
    rw [if_pos hlen]
  · intro t ht hlen2 hdiff
    have hv : validate_same_rank_play r.game_state c.rank.to_string = false := by
      unfold validate_same_rank_play
      rw [if_neg (by rw [hnonempty_of_last t ht]; exact Bool.false_ne_true), ht]
      dsimp only
      rw [if_neg (by omega)]
      exact beq_eq_false_iff_ne.mpr hdiff
    have hshape : handle_same_rank_play now uid ad r =
        (false, (apply_same_rank_penalty uid r).2) := by
      unfold handle_same_rank_play
      dsimp only
      rw [hp]
      dsimp only
      rw [hf]
      dsimp only
      rw [hv]
      simp only [Bool.not_false, if_true]
    rw [hshape]
    refine ⟨rfl, ?_⟩
    by_cases hemp : r.game_state.draw_pile = []
    · rw [if_pos hemp]
      have : apply_same_rank_penalty uid r = (none, r) := by
        unfold apply_same_rank_penalty
        rw [if_pos (List.isEmpty_iff.mpr hemp)]
      rw [this]
      exact ⟨player, hp, rfl⟩
    · rw [if_neg hemp]
      obtain ⟨card, heq⟩ : ∃ card, r.game_state.draw_pile.getLast? = some card :=
        ⟨_, List.getLast?_eq_getLast _ hemp⟩
      have hempB : r.game_state.draw_pile.isEmpty = false := by
        cases hD : r.game_state.draw_pile with
        | nil => exact absurd hD hemp
        | cons x xs => rfl
      unfold apply_same_rank_penalty GameState.draw_from_draw_pile
      dsimp only
      rw [if_neg (by rw [hempB]; exact Bool.false_ne_true),
        if_neg (by rw [hempB]; exact Bool.false_ne_true), heq]
      dsimp only
      refine ⟨{ player.add_card_to_hand card with status := PlayerStatus.Waiting },
        ?_, ?_⟩
      · rw [lookupA_updateA_self]
        have hps : (((r.game_state.track_change "draw_pile").send_changes_if_needed)).players =
            r.game_state.players := by
          rw [send_players, track_players]
        conv_lhs =>
          rw [show ({ r.game_state with draw_pile := r.game_state.draw_pile.dropLast }
            : GameState).track_change "draw_pile" =
            ({ r.game_state with draw_pile := r.game_state.draw_pile.dropLast }
            : GameState).track_change "draw_pile" from rfl]
        rw [show (lookupA ((({ r.game_state with
            draw_pile := r.game_state.draw_pile.dropLast } : GameState).track_change
            "draw_pile").send_changes_if_needed).players uid) = lookupA
            r.game_state.players uid by rw [send_players, track_players]] at *
        rw [hp]
        rfl
      · dsimp only [Player.add_card_to_hand]
        rw [filterMap_addCardSlots_length]

/-- C4 witness: scenario S2 — P1 offers rank 5 while the top of discard is
rank 6 and the draw pile is non-empty; the play is rejected and P1's
occupied slot count grows from 1 to 2. -/
theorem C4_same_rank_round_trip_witness :
    lookupA wSrRound.game_state.players "P1" =
      some (mkPlayer "P1" "Alice" [some cFive, none]) ∧
    findCardInHand (mkPlayer "P1" "Alice" [some cFive, none]).hand "c5" = some cFive ∧
    wSrRound.game_state.discard_pile.getLast? = some cSix ∧
    2 ≤ wSrRound.game_state.discard_pile.length ∧
    strToLower cFive.rank.to_string ≠ strToLower cSix.rank.to_string ∧
    (handle_same_rank_play 0 "P1"
      { ActionData.empty with card_id := some "c5" } wSrRound).1 = false ∧
    ∃ q, lookupA (handle_same_rank_play 0 "P1"
        { ActionData.empty with card_id := some "c5" } wSrRound).2.game_state.players
        "P1" = some q ∧
      (q.hand.filterMap id).length =
        ((mkPlayer "P1" "Alice" [some cFive, none]).hand.filterMap id).length +
          (if wSrRound.game_state.draw_pile = [] then 0 else 1) := by
  have h := (C4_same_rank_round_trip 0 "P1"
    { ActionData.empty with card_id := some "c5" } wSrRound
    (mkPlayer "P1" "Alice" [some cFive, none]) cFive (by decide) (by decide)).2.2
    cSix (by decide) (by decide) (by decide)
  exact ⟨by decide, by decide, by decide, by decide, by decide, h.1, h.2⟩

/-! ### Jack swap (C8) -/

/-- C8 (amended): when all four operands are present, both named players
exist, and each named card is found in its named owner's hand, `jack_swap`
succeeds and performs the in-place slot swap: the first owner's hand gets
the second card at the first card's slot index and vice versa, and for two
distinct owners every other slot of both hands is unchanged.  The
`owner_id` references on the swapped cards are NOT updated (the source
leaves ownership update as a placeholder), as the counterexample shows.
When an operand is missing, a named player is unknown, or a named card is
not in the named owner's hand, the action is rejected with the state
unchanged. -/
theorem C8_jack_swap (uid : String) (ad : ActionData) (r : GameRound) :
    (∀ fp sp fc fci sc sci,
      ad.first_card_id.getD "" ≠ "" → ad.first_player_id.getD "" ≠ "" →
      ad.second_card_id.getD "" ≠ "" → ad.second_player_id.getD "" ≠ "" →
      lookupA r.game_state.players (ad.first_player_id.getD "") = some fp →
      lookupA r.game_state.players (ad.second_player_id.getD "") = some sp →
      findCardIdx fp.hand (ad.first_card_id.getD "") = some (fc, fci) →
      findCardIdx sp.hand (ad.second_card_id.getD "") = some (sc, sci) →
      (handle_jack_swap uid ad r).1 = true ∧
      (handle_jack_swap uid ad r).2.game_state.players =
        updateA (updateA r.game_state.players (ad.first_player_id.getD "")
          (fun p => { p with hand := p.hand.set fci (some sc) }))
          (ad.second_player_id.getD "")
          (fun p => { p with hand := p.hand.set sci (some fc) }) ∧
      (ad.first_player_id.getD "" ≠ ad.second_player_id.getD "" →
        ∃ fp' sp',
          lookupA (handle_jack_swap uid ad r).2.game_state.players
            (ad.first_player_id.getD "") = some fp' ∧
          lookupA (handle_jack_swap uid ad r).2.game_state.players
            (ad.second_player_id.getD "") = some sp' ∧
          fp'.hand = fp.hand.set fci (some sc) ∧
          sp'.hand = sp.hand.set sci (some fc) ∧
          (∀ j, j ≠ fci → fp'.hand.get? j = fp.hand.get? j) ∧
          (∀ j, j ≠ sci → sp'.hand.get? j = sp.hand.get? j))) ∧
    ((ad.first_card_id.getD "" = "" ∨ ad.first_player_id.getD "" = "" ∨
      ad.second_card_id.getD "" = "" ∨ ad.second_player_id.getD "" = "") →
      handle_jack_swap uid ad r = (false, r)) ∧
    ((containsA r.game_state.players (ad.first_player_id.getD "") = false ∨
      containsA r.game_state.players (ad.second_player_id.getD "") = false) →
      handle_jack_swap uid ad r = (false, r)) ∧
    (∀ fp sp,
      lookupA r.game_state.players (ad.first_player_id.getD "") = some fp →
      lookupA r.game_state.players (ad.second_player_id.getD "") = some sp →
      (findCardIdx fp.hand (ad.first_card_id.getD "") = none ∨
        findCardIdx sp.hand (ad.second_card_id.getD "") = none) →
      handle_jack_swap uid ad r = (false, r)) := by
  refine ⟨?_, ?_, ?_, ?_⟩
  · intro fp sp fc fci sc sci h1 h2 h3 h4 hfp hsp hff hfs
    have hcond : ¬((decide (ad.first_card_id.getD "" = "") ||
        decide (ad.first_player_id.getD "" = "") ||
        decide (ad.second_card_id.getD "" = "") ||
        decide (ad.second_player_id.getD "" = "")) = true) := by
      simp [h1, h2, h3, h4]
    have hcont : ¬((!containsA r.game_state.players (ad.first_player_id.getD "") ||
        !containsA r.game_state.players (ad.second_player_id.getD "")) = true) := by
      simp [containsA, hfp, hsp]
    unfold handle_jack_swap
    dsimp only
    rw [if_neg hcond, if_neg hcont, hfp, hsp]
    dsimp only
    rw [hff, hfs]
    dsimp only
    refine ⟨rfl, rfl, ?_⟩
    intro hpp
    refine ⟨{ fp with hand := fp.hand.set fci (some sc) },
      { sp with hand := sp.hand.set sci (some fc) }, ?_, ?_, rfl, rfl, ?_, ?_⟩
    · rw [lookupA_updateA_ne _ _ _ _ (Ne.symm hpp), lookupA_updateA_self, hfp]
      rfl
    · rw [lookupA_updateA_self, lookupA_updateA_ne _ _ _ _ hpp, hsp]
      rfl
    · intro j hj
      exact List.get?_set_ne _ _ (Ne.symm hj)
    · intro j hj
      exact List.get?_set_ne _ _ (Ne.symm hj)
  · intro hmiss
    have hcond : ((decide (ad.first_card_id.getD "" = "") ||
        decide (ad.first_player_id.getD "" = "") ||
        decide (ad.second_card_id.getD "" = "") ||
        decide (ad.second_player_id.getD "" = "")) = true) := by
      rcases hmiss with h | h | h | h <;> simp [h]
    unfold handle_jack_swap
    dsimp only
    rw [if_pos hcond]
  · intro hmiss
    by_cases hcond : ((decide (ad.first_card_id.getD "" = "") ||
        decide (ad.first_player_id.getD "" = "") ||
        decide (ad.second_card_id.getD "" = "") ||
        decide (ad.second_player_id.getD "" = "")) = true)
    · unfold handle_jack_swap
      dsimp only
      rw [if_pos hcond]
    · have hcont : ((!containsA r.game_state.players (ad.first_player_id.getD "") ||
          !containsA r.game_state.players (ad.second_player_id.getD "")) = true) := by
        rcases hmiss with h | h <;> simp [h]
      unfold handle_jack_swap
      dsimp only
      rw [if_neg hcond, if_pos hcont]
  · intro fp sp hfp hsp hmiss
    by_cases hcond : ((decide (ad.first_card_id.getD "" = "") ||
        decide (ad.first_player_id.getD "" = "") ||
        decide (ad.second_card_id.getD "" = "") ||
        decide (ad.second_player_id.getD "" = "")) = true)
    · unfold handle_jack_swap
      dsimp only
      rw [if_pos hcond]
    · have hcont : ¬((!containsA r.game_state.players (ad.first_player_id.getD "") ||
          !containsA r.game_state.players (ad.second_player_id.getD "")) = true) := by
        simp [containsA, hfp, hsp]
      unfold handle_jack_swap
      dsimp only
      rw [if_neg hcond, if_neg hcont, hfp, hsp]
      dsimp only
      rcases hmiss with h | h
      · rw [h]
      · rw [h]
        cases findCardIdx fp.hand (ad.first_card_id.getD "") <;> rfl

/-- C8 witness: the swap of `x1` (P1, slot 0) and `y2` (P2, slot 1)
succeeds, places each card at the other's slot index, and leaves the other
slots of both hands unchanged. -/
theorem C8_jack_swap_witness :
    (handle_jack_swap "P1" swapData swapRound).1 = true ∧
    ∃ fp' sp',
      lookupA (handle_jack_swap "P1" swapData swapRound).2.game_state.players
        "P1" = some fp' ∧
      lookupA (handle_jack_swap "P1" swapData swapRound).2.game_state.players
        "P2" = some sp' ∧
      fp'.hand = (mkPlayer "P1" "Alice" [some jc1, some cFive]).hand.set 0 (some jc2) ∧
      sp'.hand = (mkPlayer "P2" "Bob" [some cSix, some jc2]).hand.set 1 (some jc1) := by
  have h := (C8_jack_swap "P1" swapData swapRound).1
    (mkPlayer "P1" "Alice" [some jc1, some cFive])
    (mkPlayer "P2" "Bob" [some cSix, some jc2]) jc1 0 jc2 1
    (by decide) (by decide) (by decide) (by decide)
    (by decide) (by decide) (by decide) (by decide)
  obtain ⟨hok, _, hdist⟩ := h
  obtain ⟨fp', sp', hl1, hl2, he1, he2, _, _⟩ := hdist (by decide)
  exact ⟨hok, fp', sp', hl1, hl2, he1, he2⟩

/-! ### Rejection atomicity (C5) -/

theorem handle_draw_false (pid : String) (ad : ActionData) (r : GameRound) :
    (handle_draw_from_pile pid ad r).1 = false →
    (handle_draw_from_pile pid ad r).2 = r := by
  unfold handle_draw_from_pile
  dsimp only
  split
  · intro _; rfl
  · split
    · intro _; rfl
    · intro h; simp at h

theorem handle_play_false (now : Nat) (pid : String) (ad : ActionData) (r : GameRound) :
    (handle_play_card now pid ad r).1 = false →
    (handle_play_card now pid ad r).2 = r := by
  unfold handle_play_card
  dsimp only
  split
  · intro _; rfl
  · split
    · intro _; rfl
    · split
      · intro _; rfl
      · split
        · next hc => exact absurd hc (by simp [discard_fst])
        · intro h; simp at h

theorem handle_queen_false (uid : String) (ad : ActionData) (r : GameRound) :
    (handle_queen_peek uid ad r).1 = false →
    (handle_queen_peek uid ad r).2 = r := by
  unfold handle_queen_peek
  dsimp only
  split
  · intro _; rfl
  · split
    · intro _; rfl
    · split
      · intro _; rfl
      · split
        · intro _; rfl
        · intro h; simp at h

theorem handle_jack_false (uid : String) (ad : ActionData) (r : GameRound) :
    (handle_jack_swap uid ad r).1 = false →
    (handle_jack_swap uid ad r).2 = r := by
  unfold handle_jack_swap
  dsimp only
  split
  · intro _; rfl
  · split
    · intro _; rfl
    · split
      · split
        · intro h; simp at h
        · intro _; rfl
      · intro _; rfl

theorem handle_same_rank_notin (now : Nat) (uid : String) (ad : ActionData)
    (r : GameRound) (player : Player)
    (hp : lookupA r.game_state.players uid = some player)
    (hf : findCardInHand player.hand (ad.card_id.getD "") = none) :
    handle_same_rank_play now uid ad r = (false, r) := by
  unfold handle_same_rank_play
  dsimp only
  rw [hp]
  dsimp only
  rw [hf]

/-- **C5** (amended).  Validation failures are atomic — with one exception.
(a) An unknown or empty action tag, and (b) an unknown session id, are rejected
with the round unchanged and no phase write.  With a known player:
(c) a rejected `draw_from_deck`, (e) a `same_rank_play` naming a card absent
from the actor's hand, (f) a rejected `jack_swap` and (g) a rejected
`queen_peek` all leave the round unchanged and write no phase.  But (d) a
rejected `play_card` is NOT atomic: the dispatcher opens the same-rank window
on the (otherwise unchanged) round even though the handler failed, flipping
the phase to `same_rank_window`, re-statusing active players and arming the
timer — the spec's unqualified "state unchanged on rejection" is false for
this one path. -/
theorem C5_rejection_atomicity (now : Nat) (sid : String) (req : ActionRequest)
    (r : GameRound) :
    ((req.action.orElse (fun _ => req.action_type)).getD "" ∉
        (["draw_from_deck", "play_card", "same_rank_play", "discard_card",
          "take_from_discard", "call_recall", "jack_swap", "queen_peek"] : List String) →
      on_player_action now sid req r = (false, r, []))
    ∧ (containsA r.game_state.players sid = false →
      on_player_action now sid req r = (false, r, []))
    ∧ ((req.action.orElse (fun _ => req.action_type)).getD "" = "draw_from_deck" →
      containsA r.game_state.players sid = true →
      (handle_draw_from_pile sid req.data r).1 = false →
      on_player_action now sid req r = (false, r, []))
    ∧ ((req.action.orElse (fun _ => req.action_type)).getD "" = "play_card" →
      containsA r.game_state.players sid = true →
      (handle_play_card now sid req.data r).1 = false →
      on_player_action now sid req r =
        (false, (handle_same_rank_window now r).1, [GamePhase.SameRankWindow]))
    ∧ (∀ player, (req.action.orElse (fun _ => req.action_type)).getD "" = "same_rank_play" →
      containsA r.game_state.players sid = true →
      lookupA r.game_state.players sid = some player →
      findCardInHand player.hand (req.data.card_id.getD "") = none →
      on_player_action now sid req r = (false, r, []))
    ∧ ((req.action.orElse (fun _ => req.action_type)).getD "" = "jack_swap" →
      containsA r.game_state.players sid = true →
      (handle_jack_swap sid req.data r).1 = false →
      on_player_action now sid req r = (false, r, []))
    ∧ ((req.action.orElse (fun _ => req.action_type)).getD "" = "queen_peek" →
      containsA r.game_state.players sid = true →
      (handle_queen_peek sid req.data r).1 = false →
      on_player_action now sid req r = (false, r, [])) := by
  refine ⟨?_, ?_, ?_, ?_, ?_, ?_, ?_⟩
  · intro hnot
    have hne : ∀ s : String,
        s ∈ (["draw_from_deck", "play_card", "same_rank_play", "discard_card",
              "take_from_discard", "call_recall", "jack_swap", "queen_peek"] : List String) →
        ¬((req.action.orElse (fun _ => req.action_type)).getD "" = s) := by
      intro s hs he
      exact hnot (he ▸ hs)
    unfold on_player_action route_action
    dsimp only [extract_user_id, build_action_data]
    by_cases hA : (req.action.orElse (fun _ => req.action_type)).getD "" = ""
    · rw [if_pos hA]
    · rw [if_neg hA]
      cases hcb : containsA r.game_state.players sid
      · rfl
      · rw [if_neg (hne "draw_from_deck" (by decide)),
          if_neg (hne "play_card" (by decide)),
          if_neg (hne "same_rank_play" (by decide)),
          if_neg (hne "discard_card" (by decide)),
          if_neg (hne "take_from_discard" (by decide)),
          if_neg (hne "call_recall" (by decide)),
          if_neg (hne "jack_swap" (by decide)),
          if_neg (hne "queen_peek" (by decide))]
        rfl
  · intro hb
    unfold on_player_action
    dsimp only [extract_user_id]
    by_cases hA : (req.action.orElse (fun _ => req.action_type)).getD "" = ""
    · rw [if_pos hA]
    · rw [if_neg hA, hb]
      rfl
  · intro htag hc hf
    unfold on_player_action route_action
    dsimp only [extract_user_id, build_action_data]
    rw [htag, hc]
    simp only [String.reduceEq, if_true, if_false, Bool.not_true, Bool.false_eq_true,
      Bool.not_false, hf]
    rw [handle_draw_false sid req.data r hf]
  · intro htag hc hf
    unfold on_player_action route_action
    dsimp only [extract_user_id, build_action_data]
    rw [htag, hc]
    simp only [String.reduceEq, if_true, if_false, Bool.not_true, Bool.false_eq_true,
      Bool.not_false, hf]
    rw [handle_play_false now sid req.data r hf]
    rfl
  · intro player htag hc hp hf
    unfold on_player_action route_action
    dsimp only [extract_user_id, build_action_data]
    rw [htag, hc]
    simp only [String.reduceEq, if_true, if_false, Bool.not_true, Bool.false_eq_true,
      Bool.not_false]
    rw [handle_same_rank_notin now sid req.data r player hp hf]
    rfl
  · intro htag hc hf
    unfold on_player_action route_action
    dsimp only [extract_user_id, build_action_data]
    rw [htag, hc]
    simp only [String.reduceEq, if_true, if_false, Bool.not_true, Bool.false_eq_true,
      Bool.not_false, hf]
    rw [handle_jack_false sid req.data r hf]
  · intro htag hc hf
    unfold on_player_action route_action
    dsimp only [extract_user_id, build_action_data]
    rw [htag, hc]
    simp only [String.reduceEq, if_true, if_false, Bool.not_true, Bool.false_eq_true,
      Bool.not_false, hf]
    rw [handle_queen_false sid req.data r hf]

/-- **C5 witness**: `P1` plays the card id `zz`, absent from the hand; the
handler rejects, yet the same-rank window opens on the unchanged round. -/
theorem C5_rejection_atomicity_witness :
    on_player_action 0 "P1" c5Req bugRound =
      (false, (handle_same_rank_window 0 bugRound).1, [GamePhase.SameRankWindow]) :=
  (C5_rejection_atomicity 0 "P1" c5Req bugRound).2.2.2.1
    (by decide) (by decide) (by decide)

/-! ### Per-step phase-write ascent (C7) -/

theorem turnSeg_cons_ER (l : List GamePhase) :
    turnSeg (GamePhase.EndingRound :: l) = GamePhase.EndingRound :: turnSeg l := rfl

theorem turnSeg_cons_TPE (l : List GamePhase) :
    turnSeg (GamePhase.TurnPendingEvents :: l) =
      GamePhase.TurnPendingEvents :: turnSeg l := rfl

theorem move_to_next_player_log (now : Nat) (r : GameRound) :
    (move_to_next_player now r).2 = [] ∨
    (move_to_next_player now r).2 = [GamePhase.GameEnded] ∨
    (move_to_next_player now r).2 = [GamePhase.PlayerTurn] := by
  unfold move_to_next_player
  dsimp only
  split
  · exact Or.inl rfl
  · split
    · exact Or.inl rfl
    · split
      · split
        · exact Or.inr (Or.inl rfl)
        · exact Or.inr (Or.inr rfl)
      · exact Or.inr (Or.inr rfl)

theorem turnSeg_move (now : Nat) (r : GameRound) :
    turnSeg (move_to_next_player now r).2 = [] := by
  rcases move_to_next_player_log now r with h | h | h <;> rw [h] <;> rfl

theorem turnSeg_move_append (now : Nat) (r : GameRound) (s : List GamePhase) :
    turnSeg ((move_to_next_player now r).2 ++ s) = turnSeg s ∨
    turnSeg ((move_to_next_player now r).2 ++ s) = [] := by
  rcases move_to_next_player_log now r with h | h | h <;> rw [h]
  · exact Or.inl rfl
  · exact Or.inr rfl
  · exact Or.inr rfl

theorem continue_turn_log_ER (now : Nat) (r : GameRound)
    (h : r.game_state.phase = GamePhase.EndingRound) :
    (continue_turn now r).2 = (move_to_next_player now r).2 := by
  unfold continue_turn
  dsimp only
  rw [h, if_neg (show ¬(GamePhase.EndingRound = GamePhase.TurnPendingEvents) by decide)]
  rw [if_pos
    (show (r, ([] : List GamePhase)).1.game_state.phase = GamePhase.EndingRound from h)]
  rfl

theorem check_pending_log (now : Nat) (r : GameRound)
    (h : r.game_state.phase = GamePhase.TurnPendingEvents) :
    (check_pending_events_before_ending_round now r).2 = [GamePhase.EndingRound] ∨
    ∃ r', (check_pending_events_before_ending_round now r).2 =
      GamePhase.EndingRound :: (move_to_next_player now r').2 := by
  unfold check_pending_events_before_ending_round
  split
  · exact Or.inl rfl
  · dsimp only
    rw [h, if_pos
      (show GamePhase.TurnPendingEvents = GamePhase.TurnPendingEvents from rfl)]
    split
    · exact Or.inr ⟨_, rfl⟩
    · next hno => exact absurd rfl hno

theorem continue_turn_turnSeg_TPE (now : Nat) (r : GameRound)
    (h : r.game_state.phase = GamePhase.TurnPendingEvents) :
    turnSeg (continue_turn now r).2 = [] ∨
    turnSeg (continue_turn now r).2 = [GamePhase.EndingRound] := by
  unfold continue_turn
  dsimp only
  rw [h, if_pos rfl]
  rcases check_pending_log now r h with hm | ⟨r', hm⟩ <;> rw [hm] <;> refine Or.inr ?_
  · simp only [List.cons_append, List.nil_append]
    rw [turnSeg_cons_ER]
    split
    · rw [turnSeg_move]
    · rfl
  · rcases move_to_next_player_log now r' with h1 | h1 | h1 <;> rw [h1]
    · simp only [List.cons_append, List.nil_append]
      rw [turnSeg_cons_ER]
      split
      · rw [turnSeg_move]
      · rfl
    · rfl
    · rfl

theorem route_action_log (now : Nat) (action uid : String) (ad : ActionData)
    (r : GameRound) :
    (route_action now action uid ad r).2.2 = [] ∨
    (route_action now action uid ad r).2.2 = [GamePhase.SameRankWindow] := by
  unfold route_action
  dsimp only
  split
  · exact Or.inl rfl
  · split
    · exact Or.inr rfl
    · split
      · exact Or.inl rfl
      · split
        · exact Or.inl rfl
        · split
          · exact Or.inl rfl
          · split
            · exact Or.inl rfl
            · split
              · exact Or.inl rfl
              · split
                · exact Or.inl rfl
                · exact Or.inl rfl

theorem on_player_action_log (now : Nat) (sid : String) (req : ActionRequest)
    (r : GameRound) :
    (on_player_action now sid req r).2.2 = [] ∨
    (on_player_action now sid req r).2.2 = [GamePhase.SameRankWindow] := by
  unfold on_player_action
  dsimp only
  split
  · exact Or.inl rfl
  · split
    · exact Or.inl rfl
    · split
      · exact route_action_log now _ _ _ r
      · exact route_action_log now _ _ _ r

theorem end_special_turnSeg (now : Nat) (r : GameRound) :
    ascendingFrom 2 (turnSeg (end_special_cards_window now r).2) = true := by
  unfold end_special_cards_window
  dsimp only
  rw [turnSeg_cons_TPE]
  have h2 := continue_turn_turnSeg_TPE now
    ({ r with
        special_card_timer := none
        special_card_data := []
        special_card_players := []
        game_state := { r.game_state with phase := GamePhase.TurnPendingEvents } })
    rfl
  rcases h2 with h | h <;> rw [h] <;> rfl

theorem process_turnSeg (now : Nat) (r : GameRound) :
    ascendingFrom 2 (turnSeg (process_next_special_card now r).2) = true := by
  unfold process_next_special_card
  dsimp only
  split
  · exact end_special_turnSeg now _
  · rfl

theorem hscw_turnSeg (now : Nat) (r : GameRound) :
    ascendingFrom 1 (turnSeg (handle_special_cards_window now r).2) = true := by
  unfold handle_special_cards_window
  dsimp only
  split
  · rw [turnSeg_cons_ER,
      continue_turn_log_ER now
        { r with game_state := { r.game_state with phase := GamePhase.EndingRound } } rfl,
      turnSeg_move]
    rfl
  · next hne =>
    cases hd : r.special_card_data with
    | nil => rw [hd] at hne; simp at hne
    | cons a l => rfl

/-- **C7** (amended).  Each entry into the engine writes phases that ascend
strictly along the chain player_turn(0) → same_rank_window(1) →
special_play_window(2) → turn_pending_events(3) → ending_round(4), segments
freely skipped, until the write that leaves the turn (the next turn's
player_turn, or game_ended): a dispatched action (entered at player_turn)
writes above position 0; the same-rank-window timer (position 1) above 1;
the special-card timer (position 2) above 2; and `continue_turn` from
turn_pending_events (position 3) above 3.  (The spec's stronger "prefix of
the full chain" reading fails — `turn_pending_events` is skipped whenever no
special card is queued — but no phase is ever visited out of chain order or
revisited within a turn.) -/
theorem C7_phase_ascending (now : Nat) (sid : String) (req : ActionRequest)
    (r : GameRound) :
    (ascendingFrom 0 (turnSeg (on_player_action now sid req r).2.2) = true)
    ∧ (ascendingFrom 1 (turnSeg (end_same_rank_window now r).2) = true)
    ∧ (ascendingFrom 2 (turnSeg (on_special_card_timer_expired now r).2) = true)
    ∧ (r.game_state.phase = GamePhase.TurnPendingEvents →
        ascendingFrom 3 (turnSeg (continue_turn now r).2) = true) := by
  refine ⟨?_, ?_, ?_, ?_⟩
  · rcases on_player_action_log now sid req r with h | h <;> rw [h] <;> rfl
  · unfold end_same_rank_window
    dsimp only
    split
    · rfl
    · exact hscw_turnSeg now _
  · unfold on_special_card_timer_expired
    dsimp only
    exact process_turnSeg now _
  · intro h
    rcases continue_turn_turnSeg_TPE now r h with hc | hc <;> rw [hc] <;> rfl

/-- **C7 witness**: from a concrete round in `turn_pending_events`,
`continue_turn` writes only phases above position 3 within the turn. -/
theorem C7_phase_ascending_witness :
    ascendingFrom 3 (turnSeg (continue_turn 7 tpeRound).2) = true :=
  (C7_phase_ascending 7 "A" (playReq "c2") tpeRound).2.2.2 (by decide)

end Recall
